import Mathlib

/-!
Verification of the api-docs-cli spec-acquisition and cache core.

The JavaScript sources are shallowly embedded: pure functions are
translated to Lean functions, external collaborators (HTTP client,
headless browser, JSON/YAML parsers, filesystem) become explicit oracle
parameters or state records, and JS numbers/strings are modelled with
Nat / String.  JS strings are treated through their character lists; the
ASCII fragments of String.prototype.trim / toLowerCase are modelled
(the inputs the program normalizes are URLs and provider names).
-/

set_option autoImplicit false
set_option maxRecDepth 100000

namespace Js

/-- ASCII whitespace set of String.prototype.trim (space, tab, LF, VT, FF, CR). -/
def isWs (c : Char) : Bool :=
  c.toNat == 32 || c.toNat == 9 || c.toNat == 10 || c.toNat == 11 ||
  c.toNat == 12 || c.toNat == 13

/-- ASCII fragment of String.prototype.toLowerCase on one character. -/
def lowerChar (c : Char) : Char :=
  if h : 65 ≤ c.toNat ∧ c.toNat ≤ 90 then
    Char.ofNatAux (c.toNat + 32) (Or.inl (by omega))
  else c

/-- Left part of String.prototype.trim. -/
def trimLeftChars (l : List Char) : List Char := l.dropWhile isWs

/-- Right part of String.prototype.trim. -/
def trimRightChars : List Char → List Char
  | [] => []
  | c :: cs =>
    let r := trimRightChars cs
    if r.isEmpty && isWs c then [] else c :: r

/-- String.prototype.trim. -/
def trim (s : String) : String := ⟨trimRightChars (trimLeftChars s.data)⟩

/-- String.prototype.toLowerCase (ASCII fragment). -/
def toLower (s : String) : String := ⟨s.data.map lowerChar⟩

/-- ASCII fragment of String.prototype.toUpperCase on one character. -/
def upperChar (c : Char) : Char :=
  if h : 97 ≤ c.toNat ∧ c.toNat ≤ 122 then
    Char.ofNatAux (c.toNat - 32) (Or.inl (by omega))
  else c

/-- String.prototype.toUpperCase (ASCII fragment). -/
def toUpper (s : String) : String := ⟨s.data.map upperChar⟩

/-- Does the first list start with the second one? (String.prototype.startsWith core.) -/
def leadsList : List Char → List Char → Bool
  | _, [] => true
  | [], _ :: _ => false
  | c :: cs, p :: ps => c == p && leadsList cs ps

/-- String.prototype.startsWith. -/
def startsWith (s pat : String) : Bool := leadsList s.data pat.data

/-- String.prototype.endsWith. -/
def endsWith (s pat : String) : Bool := leadsList s.data.reverse pat.data.reverse

/-- Substring occurrence on character lists (String.prototype.includes core). -/
def hasSubList : List Char → List Char → Bool
  | t, p =>
    match t with
    | [] => p.isEmpty
    | _ :: ts => leadsList t p || hasSubList ts p

/-- String.prototype.includes. -/
def includes (s pat : String) : Bool := hasSubList s.data pat.data

end Js

namespace Sha

/-- SHA-256 round constants. -/
def K : List Nat :=
  [1116352408, 1899447441, 3049323471, 3921009573, 961987163, 1508970993,
   2453635748, 2870763221, 3624381080, 310598401, 607225278, 1426881987,
   1925078388, 2162078206, 2614888103, 3248222580, 3835390401, 4022224774,
   264347078, 604807628, 770255983, 1249150122, 1555081692, 1996064986,
   2554220882, 2821834349, 2952996808, 3210313671, 3336571891, 3584528711,
   113926993, 338241895, 666307205, 773529912, 1294757372, 1396182291,
   1695183700, 1986661051, 2177026350, 2456956037, 2730485921, 2820302411,
   3259730800, 3345764771, 3516065817, 3600352804, 4094571909, 275423344,
   430227734, 506948616, 659060556, 883997877, 958139571, 1322822218,
   1537002063, 1747873779, 1955562222, 2024104815, 2227730452, 2361852424,
   2428436474, 2756734187, 3204031479, 3329325298]

/-- SHA-256 initial hash state. -/
def H0 : List Nat :=
  [1779033703, 3144134277, 1013904242, 2773480762,
   1359893119, 2600822924, 528734635, 1541459225]

def mask32 (x : Nat) : Nat := x % 4294967296

def rotr (n x : Nat) : Nat := mask32 (x / 2 ^ n + x % 2 ^ n * 2 ^ (32 - n))

def shr (n x : Nat) : Nat := x / 2 ^ n

def bigSigma0 (x : Nat) : Nat := (rotr 2 x) ^^^ (rotr 13 x) ^^^ (rotr 22 x)

def bigSigma1 (x : Nat) : Nat := (rotr 6 x) ^^^ (rotr 11 x) ^^^ (rotr 25 x)

def smallSigma0 (x : Nat) : Nat := (rotr 7 x) ^^^ (rotr 18 x) ^^^ (shr 3 x)

def smallSigma1 (x : Nat) : Nat := (rotr 17 x) ^^^ (rotr 19 x) ^^^ (shr 10 x)

def ch (x y z : Nat) : Nat := (x &&& y) ^^^ ((4294967295 - x) &&& z)

def maj (x y z : Nat) : Nat := (x &&& y) ^^^ (x &&& z) ^^^ (y &&& z)

/-- Big-endian bytes of a value, fixed width. -/
def beBytes : Nat → Nat → List Nat
  | 0, _ => []
  | w + 1, x => x / 256 ^ w % 256 :: beBytes w x

/-- SHA-256 message padding: 0x80, zeros, 64-bit big-endian bit length. -/
def pad (msg : List Nat) : List Nat :=
  let l := msg.length
  msg ++ 128 :: List.replicate ((64 - (l + 9) % 64) % 64) 0 ++ beBytes 8 (8 * l)

/-- Split a padded message into 64-byte blocks (fuel = number of blocks). -/
def toBlocks : Nat → List Nat → List (List Nat)
  | 0, _ => []
  | n + 1, l => l.take 64 :: toBlocks n (l.drop 64)

/-- One 32-bit big-endian word from 4 bytes. -/
def word (b : List Nat) : Nat :=
  ((b.getD 0 0 * 256 + b.getD 1 0) * 256 + b.getD 2 0) * 256 + b.getD 3 0

/-- Initial 16 words of the message schedule of one block. -/
def initW : Nat → List Nat → List Nat
  | 0, _ => []
  | n + 1, l => word (l.take 4) :: initW n (l.drop 4)

/-- Extend the schedule from 16 to 64 words. -/
def extendW : Nat → List Nat → List Nat
  | 0, w => w
  | n + 1, w =>
    let t := w.length
    extendW n (w ++ [mask32 (smallSigma1 (w.getD (t - 2) 0) + w.getD (t - 7) 0 +
      smallSigma0 (w.getD (t - 15) 0) + w.getD (t - 16) 0)])

/-- One compression round. -/
def round (st : List Nat) (kw : Nat × Nat) : List Nat :=
  let a := st.getD 0 0
  let b := st.getD 1 0
  let c := st.getD 2 0
  let d := st.getD 3 0
  let e := st.getD 4 0
  let f := st.getD 5 0
  let g := st.getD 6 0
  let h := st.getD 7 0
  let t1 := mask32 (h + bigSigma1 e + ch e f g + kw.1 + kw.2)
  let t2 := mask32 (bigSigma0 a + maj a b c)
  [mask32 (t1 + t2), a, b, c, mask32 (d + t1), e, f, g]

/-- Compress one block into the running hash state. -/
def compress (h : List Nat) (blk : List Nat) : List Nat :=
  let w := extendW 48 (initW 16 blk)
  let st := (K.zip w).foldl round h
  (h.zip st).map (fun p => mask32 (p.1 + p.2))

/-- SHA-256 digest (32 bytes) of a byte list. -/
def sha256 (msg : List Nat) : List Nat :=
  let padded := pad msg
  let hs := (toBlocks (padded.length / 64) padded).foldl compress H0
  hs.foldr (fun w acc => beBytes 4 w ++ acc) []

def hexDigit (n : Nat) : Char :=
  if n < 10 then Char.ofNat (48 + n) else Char.ofNat (87 + n)

/-- Lowercase hex string of a byte list (Buffer.toString of node crypto digest). -/
def hex (bytes : List Nat) : List Char :=
  bytes.foldr (fun b acc => hexDigit (b / 16) :: hexDigit (b % 16) :: acc) []

/-- UTF-8 bytes of one code point. -/
def utf8Char (n : Nat) : List Nat :=
  if n < 128 then [n]
  else if n < 2048 then [192 + n / 64, 128 + n % 64]
  else if n < 65536 then [224 + n / 4096, 128 + n / 64 % 64, 128 + n % 64]
  else [240 + n / 262144, 128 + n / 4096 % 64, 128 + n / 64 % 64, 128 + n % 64]

/-- UTF-8 encoding of a string (node hash.update default encoding). -/
def utf8 (s : String) : List Nat := s.data.flatMap (fun c => utf8Char c.toNat)

end Sha

namespace CacheJs

/--
`generateCacheKey` from the cache module: SHA-256 of the trimmed,
lower-cased URL, hex-encoded, first 16 characters.
-/
def generateCacheKey (url : String) : String :=
  ⟨(Sha.hex (Sha.sha256 (Sha.utf8 (Js.toLower (Js.trim url))))).take 16⟩

end CacheJs

/--
JS values as seen by the validators and extractors.  Objects are
restricted to the fields the program reads (`openapi`, `swagger`,
`info`, `paths`, `webhooks`, `components`, `title`, `version`); all
other property reads yield `undefined`.  `arr` stands for any array
value (the program never reads indexed elements of parsed arrays).
-/
inductive JsVal where
  | undef
  | jsNull
  | boolean (b : Bool)
  | num (n : Int)
  | str (s : String)
  | arr
  | obj (openapi swagger info paths webhooks components title version : JsVal)

namespace JsVal

/-- JS truthiness. -/
def truthy : JsVal → Bool
  | undef => false
  | jsNull => false
  | boolean b => b
  | num n => n != 0
  | str s => !s.isEmpty
  | arr => true
  | obj _ _ _ _ _ _ _ _ => true

/-- `typeof v === 'object'` (true for null and arrays as in JS). -/
def isObjectType : JsVal → Bool
  | jsNull => true
  | arr => true
  | obj _ _ _ _ _ _ _ _ => true
  | _ => false

/-- `typeof v === 'string'`. -/
def isString : JsVal → Bool
  | str _ => true
  | _ => false

def isNull : JsVal → Bool
  | jsNull => true
  | _ => false

/-- The underlying string of a string value (only read under `isString`). -/
def strVal : JsVal → String
  | str s => s
  | _ => ""

/-- Property read `v.openapi` (undefined on non-objects). -/
def getOpenapi : JsVal → JsVal
  | obj o _ _ _ _ _ _ _ => o
  | _ => undef

/-- Property read `v.swagger`. -/
def getSwagger : JsVal → JsVal
  | obj _ s _ _ _ _ _ _ => s
  | _ => undef

/-- Property read `v.info`. -/
def getInfo : JsVal → JsVal
  | obj _ _ i _ _ _ _ _ => i
  | _ => undef

/-- Property read `v.paths`. -/
def getPaths : JsVal → JsVal
  | obj _ _ _ p _ _ _ _ => p
  | _ => undef

/-- Property read `v.webhooks`. -/
def getWebhooks : JsVal → JsVal
  | obj _ _ _ _ w _ _ _ => w
  | _ => undef

/-- Property read `v.components`. -/
def getComponents : JsVal → JsVal
  | obj _ _ _ _ _ c _ _ => c
  | _ => undef

/-- Property read `v.title`. -/
def getTitle : JsVal → JsVal
  | obj _ _ _ _ _ _ t _ => t
  | _ => undef

/-- Property read `v.version`. -/
def getVersion : JsVal → JsVal
  | obj _ _ _ _ _ _ _ v => v
  | _ => undef

/-- JS `a || b`. -/
def jsOr (a b : JsVal) : JsVal := if truthy a then a else b

/-- JS strict equality `v === 's'` against a string literal. -/
def eqStr (v : JsVal) (s : String) : Bool :=
  match v with
  | str t => t == s
  | _ => false

end JsVal

/-- The spec-info record the validators return. -/
structure SpecInfoRec where
  type : String
  version : JsVal
  title : JsVal
  apiVersion : JsVal

/-- Reasons `InvalidSpecError` is thrown in `src/extractors/openapi.js`. -/
inductive InvalidReason where
  | notObject
  | missingInfo
  | missingPathsWebhooksComponents
  | missingPaths
  | notValidSpec

namespace OpenapiJs

open JsVal

/--
`validateSpec` from `src/extractors/openapi.js` (throwing variant):
OpenAPI 3.x needs `info` plus one of paths/webhooks/components,
Swagger 2.0 needs `info` and `paths`.
-/
def validateSpec (spec : JsVal) : Except InvalidReason SpecInfoRec :=
  if !(truthy spec) || !(isObjectType spec) then .error .notObject
  else if truthy (getOpenapi spec) && isString (getOpenapi spec) &&
          Js.startsWith (strVal (getOpenapi spec)) "3." then
    if !(truthy (getInfo spec)) then .error .missingInfo
    else if !(truthy (getPaths spec)) && !(truthy (getWebhooks spec)) &&
            !(truthy (getComponents spec)) then .error .missingPathsWebhooksComponents
    else .ok ⟨"openapi", getOpenapi spec,
      jsOr (getTitle (getInfo spec)) (str "Unknown API"),
      jsOr (getVersion (getInfo spec)) (str "unknown")⟩
  else if truthy (getSwagger spec) && eqStr (getSwagger spec) "2.0" then
    if !(truthy (getInfo spec)) then .error .missingInfo
    else if !(truthy (getPaths spec)) then .error .missingPaths
    else .ok ⟨"swagger", getSwagger spec,
      jsOr (getTitle (getInfo spec)) (str "Unknown API"),
      jsOr (getVersion (getInfo spec)) (str "unknown")⟩
  else .error .notValidSpec

end OpenapiJs

namespace SwaggerUiJs

open JsVal

/--
`validateSpec` from the Swagger UI extractor: same shape as the
openapi.js validator but the OpenAPI 3.x branch requires only `info`
(no paths/webhooks/components check), and invalid specs yield `null`.
-/
def validateSpec (spec : JsVal) : Option SpecInfoRec :=
  if !(truthy spec) || !(isObjectType spec) then none
  else if truthy (getOpenapi spec) && isString (getOpenapi spec) &&
          Js.startsWith (strVal (getOpenapi spec)) "3." then
    if !(truthy (getInfo spec)) then none
    else some ⟨"openapi", getOpenapi spec,
      jsOr (getTitle (getInfo spec)) (str "Unknown API"),
      jsOr (getVersion (getInfo spec)) (str "unknown")⟩
  else if truthy (getSwagger spec) && eqStr (getSwagger spec) "2.0" then
    if !(truthy (getInfo spec)) || !(truthy (getPaths spec)) then none
    else some ⟨"swagger", getSwagger spec,
      jsOr (getTitle (getInfo spec)) (str "Unknown API"),
      jsOr (getVersion (getInfo spec)) (str "unknown")⟩
  else none

end SwaggerUiJs

namespace RedocJs

open JsVal

/--
`validateSpec` from `src/extractors/redoc.js`: identical logic to the
Swagger UI extractor's validator (OpenAPI 3.x requires only `info`).
-/
def validateSpec (spec : JsVal) : Option SpecInfoRec :=
  if !(truthy spec) || !(isObjectType spec) then none
  else if truthy (getOpenapi spec) && isString (getOpenapi spec) &&
          Js.startsWith (strVal (getOpenapi spec)) "3." then
    if !(truthy (getInfo spec)) then none
    else some ⟨"openapi", getOpenapi spec,
      jsOr (getTitle (getInfo spec)) (str "Unknown API"),
      jsOr (getVersion (getInfo spec)) (str "unknown")⟩
  else if truthy (getSwagger spec) && eqStr (getSwagger spec) "2.0" then
    if !(truthy (getInfo spec)) || !(truthy (getPaths spec)) then none
    else some ⟨"swagger", getSwagger spec,
      jsOr (getTitle (getInfo spec)) (str "Unknown API"),
      jsOr (getVersion (getInfo spec)) (str "unknown")⟩
  else none

end RedocJs

namespace OpenapiJs

open JsVal

/-- Probe paths `COMMON_SPEC_PATHS` in their source order. -/
def COMMON_SPEC_PATHS : List String :=
  ["/openapi.json", "/openapi.yaml", "/openapi.yml",
   "/swagger.json", "/swagger.yaml", "/swagger.yml",
   "/api-docs", "/api-docs.json", "/api-docs.yaml", "/api-docs.yml",
   "/v2/api-docs", "/v3/api-docs",
   "/docs/openapi.json", "/docs/swagger.json", "/docs/openapi.yaml", "/docs/swagger.yaml",
   "/api/openapi.json", "/api/swagger.json", "/spec/openapi.json",
   "/swagger/v2/api-docs", "/swagger/v3/api-docs"]

/-- Outcome of one `fetch` call (the HTTP client is an external collaborator). -/
inductive HttpResp where
  | timeout
  | netError
  | resp (ok : Bool) (contentType : String) (body : String)

/--
External collaborators of the openapi extractor: the HTTP client and
the JSON / YAML parsers (`JSON.parse` returns `none` when it throws;
`yaml.load` returns `none` when it throws).
-/
structure Env where
  http : String → HttpResp
  jsonParse : String → Option JsVal
  yamlParse : String → Option JsVal

inductive Format where
  | json
  | yaml

/-- The `format` field of a `ParseError`. -/
inductive ParseFail where
  | json
  | yaml

/-- `isDirectSpecUrl`: extension or spec-path keyword heuristic. -/
def isDirectSpecUrl (url : String) : Bool :=
  let lower := Js.toLower url
  Js.endsWith lower ".json" || Js.endsWith lower ".yaml" || Js.endsWith lower ".yml" ||
  Js.includes lower "/api-docs" || Js.includes lower "/openapi" || Js.includes lower "/swagger"

/--
`parseSpecContent`: JSON first when the URL ends in .json or the body
looks JSON-shaped; a JSON failure on an explicit .json URL throws
immediately; otherwise YAML, accepted only for non-null object-typed
results.
-/
def parseSpecContent (env : Env) (content url : String) : Except ParseFail (JsVal × Format) :=
  let trimmed := Js.trim content
  let lower := Js.toLower url
  let yamlPath : Except ParseFail (JsVal × Format) :=
    match env.yamlParse trimmed with
    | some v => if JsVal.isObjectType v && !(JsVal.isNull v) then .ok (v, .yaml) else .error .yaml
    | none => .error .yaml
  if Js.endsWith lower ".json" || Js.startsWith trimmed "\x7b" then
    match env.jsonParse trimmed with
    | some v => .ok (v, .json)
    | none => if Js.endsWith lower ".json" then .error .json else yamlPath
  else yamlPath

/-- Successful return value of `tryFetchSpec`. -/
structure FetchSuccess where
  spec : JsVal
  format : Format
  specInfo : SpecInfoRec
  url : String

/--
`tryFetchSpec`: one probe.  Every failure — non-ok status, an HTML body
mislabeled as success, timeout, network error, parse error, validation
error — returns `none` so the caller can try the next path.
-/
def tryFetchSpec (env : Env) (url : String) : Option FetchSuccess :=
  match env.http url with
  | .timeout => none
  | .netError => none
  | .resp ok ct body =>
    if !ok then none
    else if Js.includes ct "text/html" && !(Js.startsWith (Js.trim body) "\x7b") then none
    else
      match parseSpecContent env body url with
      | .error _ => none
      | .ok (spec, fmt) =>
        match validateSpec spec with
        | .error _ => none
        | .ok info => some ⟨spec, fmt, info, url⟩

/-- `url.replace(/\/+$/, '')`. -/
def stripTrailingSlashes (s : String) : String :=
  ⟨(s.data.reverse.dropWhile (fun c => c == '/')).reverse⟩

/-- URL normalization at the top of `fetchOpenAPISpec`. -/
def normalizeUrl (url : String) : String :=
  let t := Js.trim url
  let t := if !(Js.startsWith t "http://") && !(Js.startsWith t "https://")
           then "https://" ++ t else t
  stripTrailingSlashes t

/-- Split a URL's characters at the first `://`. -/
def splitSchemeAux : List Char → Option (List Char × List Char)
  | [] => none
  | c :: cs =>
    if Js.leadsList (c :: cs) "://".data then some ([], cs.drop 2)
    else match splitSchemeAux cs with
      | some (a, b) => some (c :: a, b)
      | none => none

/--
`getBaseUrl`: protocol + host of `new URL(url)` for
scheme://host[:port]/... shaped URLs (the host part runs to the first
`/`, `?` or `#`; the normalized URLs this program builds carry
lower-case schemes and hosts, so no case folding is modelled).
-/
def getBaseUrl (url : String) : String :=
  match splitSchemeAux url.data with
  | some (scheme, rest) =>
    ⟨scheme ++ "://".data ++ rest.takeWhile (fun c => !(c == '/' || c == '?' || c == '#'))⟩
  | none => url

/-- Final result shape of `fetchOpenAPISpec`. -/
structure FetchResult where
  spec : JsVal
  format : Format
  specInfo : SpecInfoRec
  sourceUrl : String

def mkResult (r : FetchSuccess) : FetchResult := ⟨r.spec, r.format, r.specInfo, r.url⟩

/--
The probing loop of `fetchOpenAPISpec`.  The second component records
every probed URL in order (instrumentation; the source performs these
fetches sequentially and stops at the first success).
-/
def probeLoop (env : Env) (baseUrl : String) : List String → Option FetchSuccess × List String
  | [] => (none, [])
  | p :: rest =>
    let probeUrl := baseUrl ++ p
    match tryFetchSpec env probeUrl with
    | some r => (some r, [probeUrl])
    | none =>
      let (res, tr) := probeLoop env baseUrl rest
      (res, probeUrl :: tr)

/--
`fetchOpenAPISpec` with its fetch trace: direct fetch first when the
URL looks like a direct spec reference, then the common-path probe.
The second component lists every URL handed to `tryFetchSpec` in order.
-/
def fetchOpenAPISpecTrace (env : Env) (url : String) (probeCommonPaths : Bool) :
    Option FetchResult × List String :=
  let n := normalizeUrl url
  if isDirectSpecUrl n then
    match tryFetchSpec env n with
    | some r => (some (mkResult r), [n])
    | none =>
      if probeCommonPaths then
        let (res, tr) := probeLoop env (getBaseUrl n) COMMON_SPEC_PATHS
        (res.map mkResult, n :: tr)
      else (none, [n])
  else
    if probeCommonPaths then
      let (res, tr) := probeLoop env n COMMON_SPEC_PATHS
      (res.map mkResult, tr)
    else (none, [])

/-- `fetchOpenAPISpec`'s return value (null = no spec found). -/
def fetchOpenAPISpec (env : Env) (url : String) (probeCommonPaths : Bool) : Option FetchResult :=
  (fetchOpenAPISpecTrace env url probeCommonPaths).1

end OpenapiJs

namespace CacheJs

open JsVal

/-- The `specInfo` block stored in a manifest entry. -/
structure SpecMeta where
  title : JsVal
  version : JsVal
  type : String

/-- Return value of `normalizeSpec` in the cache module. -/
structure NormalizedMeta where
  title : JsVal
  version : JsVal
  type : String
  specVersion : Option JsVal
  originalFormat : String

/--
`normalizeSpec` from the cache module.  (The source calls
`spec.openapi.startsWith` after only a truthiness check; on the object
specs the cache stores, `openapi`/`swagger` are strings, modelled via
`strVal` which is `""` on non-strings.)
-/
def normalizeSpec (spec : JsVal) (originalFormat : String) : NormalizedMeta :=
  let (specType, specVersion) : String × Option JsVal :=
    if truthy (getOpenapi spec) && Js.startsWith (strVal (getOpenapi spec)) "3." then
      ("openapi", some (getOpenapi spec))
    else if truthy (getSwagger spec) && eqStr (getSwagger spec) "2.0" then
      ("swagger", some (getSwagger spec))
    else ("unknown", none)
  ⟨jsOr (getTitle (getInfo spec)) (str "Unknown API"),
   jsOr (getVersion (getInfo spec)) (str "unknown"),
   specType, specVersion, originalFormat⟩

/--
One manifest entry (`index.json`).  The ISO-8601 timestamps are
modelled as instants in milliseconds; `new Date(a) < new Date(b)`
becomes `<` on `Nat`, and a `null` `expiresAt` is `none`.
-/
structure ManifestEntry where
  url : String
  filename : String
  cachedAt : Nat
  expiresAt : Option Nat
  specInfo : SpecMeta

/-- The content written to one blob file (JSON round-trip elided: blobs store their parsed form). -/
structure CachedData where
  url : String
  cachedAt : Nat
  expiresAt : Option Nat
  originalFormat : String
  specType : String
  specVersion : Option JsVal
  spec : JsVal

/--
On-disk cache state: the manifest entries (key → entry) and the blob
files of the cache directory (filename → content).  Lookups take the
first match, and writes shadow older pairs, modelling overwriting.
-/
structure CacheState where
  manifest : List (String × ManifestEntry)
  files : List (String × CachedData)

/-- Outcomes of `getCached` (the error classes of the cache module). -/
inductive CacheErr where
  | notFound
  | expired (expiredAt : Option Nat)
  | ioError

/-- `isExpired`: lazily evaluated at read time; `null` means never expires. -/
def isExpired (entry : ManifestEntry) (now : Nat) : Bool :=
  match entry.expiresAt with
  | none => false
  | some e => e < now

/--
`getCached`: manifest lookup, lazy TTL check, then blob read.  A
missing blob file (ENOENT) is reported as `CacheNotFoundError`, not as
an I/O error.
-/
def getCached (url : String) (ignoreExpired : Bool) (now : Nat) (st : CacheState) :
    Except CacheErr CachedData :=
  let key := generateCacheKey url
  match st.manifest.lookup key with
  | none => .error .notFound
  | some entry =>
    if !ignoreExpired && isExpired entry now then .error (.expired entry.expiresAt)
    else
      match st.files.lookup entry.filename with
      | none => .error .notFound
      | some data => .ok data

/-- Overwrite-or-insert into an association list. -/
def assocSet {β : Type} (k : String) (v : β) (l : List (String × β)) : List (String × β) :=
  (k, v) :: l.filter (fun p => !(p.1 == k))

/--
`setCache` (object-spec case; a string spec is first JSON.parsed in the
source).  `ttl ? new Date(now + ttl) : null` — note a `ttl` of `0` is
falsy in JS and therefore produces a `null` `expiresAt`.  Writes the
blob first, then the manifest entry, and returns the entry.
-/
def setCache (url : String) (spec : JsVal) (ttl : Option Nat) (originalFormat : String)
    (now : Nat) (st : CacheState) : CacheState × ManifestEntry :=
  let key := generateCacheKey url
  let filename := key ++ ".json"
  let expiresAt : Option Nat :=
    match ttl with
    | some t => if t != 0 then some (now + t) else none
    | none => none
  let specInfo := normalizeSpec spec originalFormat
  let cachedData : CachedData :=
    ⟨url, now, expiresAt, originalFormat, specInfo.type, specInfo.specVersion, spec⟩
  let entry : ManifestEntry :=
    ⟨url, filename, now, expiresAt, ⟨specInfo.title, specInfo.version, specInfo.type⟩⟩
  (⟨assocSet key entry st.manifest, assocSet filename cachedData st.files⟩, entry)

end CacheJs

namespace DiscoveryJs

open JsVal

/-- Entries of the provider→docsURL cache file (`apitracker-urls.json`). -/
structure UrlCacheEntry where
  provider : String
  docsUrl : String
  apiTrackerUrl : String
  cachedAt : Nat
  expiresAt : Option Nat

/-- Result shape of `lookupProvider` / `searchProvider` of apitracker. -/
structure TrackerResult where
  provider : String
  docsUrl : String
  apiTrackerUrl : String
  source : String

/-- Errors of the apitracker search module, as seen by discovery. -/
inductive TrackerErr where
  | providerNotFound
  | docsUrlNotFound
  | searchError

/-- Errors `lookupProvider` throws. -/
inductive DiscErr where
  | providerNotFound
  | discoveryFetch

/-- Externally observable effects of `lookupProvider`, in order. -/
inductive DiscAction where
  | readCache
  | searchTracker
  | writeCache

/--
External collaborators of discovery: the parsed URL-cache file and the
apitracker search surface.
-/
structure DiscoveryEnv where
  urlCache : List (String × UrlCacheEntry)
  search : String → Except TrackerErr TrackerResult

/-- `getCachedUrl`: key is `provider.toLowerCase().trim()`; expired entries read as misses. -/
def getCachedUrl (provider : String) (now : Nat) (env : DiscoveryEnv) : Option UrlCacheEntry :=
  let key := Js.trim (Js.toLower provider)
  match env.urlCache.lookup key with
  | none => none
  | some entry =>
    match entry.expiresAt with
    | some e => if e < now then none else some entry
    | none => some entry

/--
`lookupProvider` with its effect log.  The query is a JS value (the
guard also rejects non-strings); the second component records cache
reads, search calls and cache writes in order.
-/
def lookupProvider (query : JsVal) (forceRefresh : Bool) (now : Nat) (env : DiscoveryEnv) :
    Except DiscErr TrackerResult × List DiscAction :=
  if !(truthy query) || !(isString query) || Js.trim (strVal query) == "" then
    (.error .providerNotFound, [])
  else
    let normalizedQuery := Js.toLower (Js.trim (strVal query))
    let go : List DiscAction → Except DiscErr TrackerResult × List DiscAction := fun log =>
      match env.search normalizedQuery with
      | .ok r => (.ok r, log ++ [.searchTracker, .writeCache])
      | .error .providerNotFound => (.error .providerNotFound, log ++ [.searchTracker])
      | .error .docsUrlNotFound => (.error .providerNotFound, log ++ [.searchTracker])
      | .error .searchError => (.error .discoveryFetch, log ++ [.searchTracker])
    if !forceRefresh then
      match getCachedUrl normalizedQuery now env with
      | some cached =>
        (.ok ⟨cached.provider, cached.docsUrl, cached.apiTrackerUrl, "cache"⟩, [.readCache])
      | none => go [.readCache]
    else go []

end DiscoveryJs

namespace ApitrackerJs

/-- One anchor element as read by the apitracker page evaluations. -/
structure Link where
  href : Option String
  text : String
  parentText : String

/-- A rendered apitracker page: its final URL and its anchor elements in document order. -/
structure ApiPage where
  url : String
  links : List Link

/--
The browser-visible behaviour of the apitracker search surface:
the `goto` response of the direct slug URL (`none` = null response),
the page states after navigating to the direct URL, the search URL and
a chosen search-result URL.
-/
structure TrackerEnv where
  directResp : Option Bool
  directPage : ApiPage
  searchPage : ApiPage
  resultPage : String → ApiPage

/-- Navigations performed, in order (instrumentation of `page.goto`). -/
inductive NavAction where
  | goto (url : String)

/-- `encodeURIComponent` is the identity on unreserved characters. -/
def isUnreserved (c : Char) : Bool :=
  (48 ≤ c.toNat && c.toNat ≤ 57) || (65 ≤ c.toNat && c.toNat ≤ 90) ||
  (97 ≤ c.toNat && c.toNat ≤ 122) ||
  [45, 95, 46, 33, 126, 42, 39, 40, 41].contains c.toNat

def hexDigitUpper (n : Nat) : Char :=
  if n < 10 then Char.ofNat (48 + n) else Char.ofNat (55 + n)

/-- `encodeURIComponent`: percent-encode the UTF-8 bytes of reserved characters. -/
def encodeURIComponent (s : String) : String :=
  ⟨s.data.flatMap (fun c =>
    if isUnreserved c then [c]
    else (Sha.utf8Char c.toNat).flatMap
      (fun b => ['%', hexDigitUpper (b / 16), hexDigitUpper (b % 16)]))⟩

/--
First capture of `/\/a\/([^/?#]+)/`: the characters after the first
`/a/` occurrence that is followed by at least one non-delimiter
character (the regex engine advances one position when the capture
would be empty).
-/
def slugAux : List Char → Option (List Char)
  | [] => none
  | c :: rest =>
    if Js.leadsList (c :: rest) "/a/".data then
      let cap := (rest.drop 2).takeWhile (fun d => !(d == '/' || d == '?' || d == '#'))
      if cap.isEmpty then slugAux rest else some cap
    else slugAux rest

def slugOf (href : String) : Option String :=
  (slugAux href.data).map (fun l => ⟨l⟩)

/-- A scored search result of `findBestSearchResult`. -/
structure ScoredResult where
  url : String
  slug : String
  text : String
  score : Nat

/--
Score one search-result link: slug match beats slug-prefix beats
slug-substring beats link-text beats surrounding-text; zero scores are
dropped.  Mirrors the `page.evaluate` body of `findBestSearchResult`
(the CSS selector keeps only links whose href contains `/a/`).
-/
def scoreLink (searchQuery : String) (link : Link) : Option ScoredResult :=
  match link.href with
  | none => none
  | some href =>
    if !(Js.includes href "/a/") then none
    else
      match slugOf href with
      | none => none
      | some rawSlug =>
        let slug := Js.toLower rawSlug
        let text := Js.toLower (Js.trim link.text)
        let parentText := Js.toLower (Js.trim link.parentText)
        let score : Nat :=
          if slug == searchQuery then 100
          else if Js.startsWith slug searchQuery then 80
          else if Js.includes slug searchQuery then 60
          else if Js.includes text searchQuery then 40
          else if Js.includes parentText searchQuery then 20
          else 0
        if score > 0 then
          some ⟨if Js.startsWith href "http" then href else "https://apitracker.io" ++ href,
                slug, text, score⟩
        else none

/--
First result of maximal score (the source sorts descending with a
stable sort and takes index 0).
-/
def pickMax : List ScoredResult → Option ScoredResult
  | [] => none
  | r :: rs =>
    match pickMax rs with
    | none => some r
    | some m => if m.score > r.score then some m else some r

/-- `findBestSearchResult` over the search-results page. -/
def findBestSearchResult (page : ApiPage) (query : String) : Option ScoredResult :=
  pickMax (page.links.filterMap (scoreLink query))

/-- Priority 1 of the docs-link cascade: an explicit developer-portal link. -/
def docsP1 : List Link → Option String
  | [] => none
  | link :: rest =>
    match link.href with
    | some href =>
      if href == "" || Js.includes href "apitracker.io" || Js.startsWith href "#" then
        docsP1 rest
      else
        let text := Js.trim (Js.toLower link.text)
        if Js.includes text "developer portal" || text == "developer docs" then
          some (if Js.startsWith href "http" then href else "https://" ++ href)
        else docsP1 rest
    | none => docsP1 rest

def docsKeywords : List String :=
  ["api reference", "api docs", "documentation", "api documentation",
   "openapi", "swagger", "developer"]

/-- Priority 2: a link whose text contains a documentation keyword. -/
def docsP2 : List Link → Option String
  | [] => none
  | link :: rest =>
    match link.href with
    | some href =>
      if href == "" || Js.includes href "apitracker.io" || Js.startsWith href "#" then
        docsP2 rest
      else
        let text := Js.toLower link.text
        if docsKeywords.any (fun k => Js.includes text k) then
          some (if Js.startsWith href "http" then href else "https://" ++ href)
        else docsP2 rest
    | none => docsP2 rest

def docsPatterns : List String :=
  ["api-reference", "api-docs", "/docs", "documentation", "swagger", "openapi", "redoc"]

/--
Priority 3: conventional docs-path patterns.  For each pattern,
`document.querySelector` yields the first link whose href contains the
pattern; it is used only if that first match is not an apitracker link.
-/
def docsP3 (links : List Link) : Option String :=
  docsPatterns.findSome? (fun pat =>
    match links.find? (fun link =>
        match link.href with
        | some href => Js.includes href pat
        | none => false) with
    | some link =>
      match link.href with
      | some href =>
        if href == "" || Js.includes href "apitracker.io" then none
        else some (if Js.startsWith href "http" then href else "https://" ++ href)
      | none => none
    | none => none)

/--
Priority 4: external links outside social/code-hosting domains; an
href containing `api` wins immediately, otherwise the first
`docs`/`developer` href is kept as fallback.
-/
def docsP4 : List Link → Option String → Option String
  | [], fallback => fallback
  | link :: rest, fallback =>
    match link.href with
    | some href =>
      if Js.startsWith href "http" && !(Js.includes href "apitracker.io") &&
         !(Js.includes href "github.com") && !(Js.includes href "twitter.com") &&
         !(Js.includes href "linkedin.com") && !(Js.includes href "facebook.com") then
        if Js.includes href "api" then some href
        else if fallback.isNone && (Js.includes href "docs" || Js.includes href "developer") then
          docsP4 rest (some href)
        else docsP4 rest fallback
      else docsP4 rest fallback
    | none => docsP4 rest fallback

/-- `extractDocsFromApiPage`: slug from the page URL, then the four-priority docs-link cascade. -/
def extractDocsFromApiPage (page : ApiPage) (query : String) :
    Except DiscoveryJs.TrackerErr DiscoveryJs.TrackerResult :=
  let provider := (slugOf page.url).getD query
  let docsUrl :=
    match docsP1 page.links with
    | some u => some u
    | none =>
      match docsP2 page.links with
      | some u => some u
      | none =>
        match docsP3 page.links with
        | some u => some u
        | none => docsP4 page.links none
  match docsUrl with
  | none => .error .docsUrlNotFound
  | some u => .ok ⟨provider, u, page.url, "apitracker"⟩

/--
`searchProvider` with its navigation log: direct `/a/{slug}` attempt
first; on failure or a docs-url-less direct page, the free-text search;
a search redirect to an `/a/` page is used directly; otherwise the best
scored result is navigated to.  No candidate at all means
`ProviderNotFoundError`.
-/
def searchProvider (env : TrackerEnv) (query : String) :
    Except DiscoveryJs.TrackerErr DiscoveryJs.TrackerResult × List NavAction :=
  let normalizedQuery := Js.toLower (Js.trim query)
  let directUrl := "https://apitracker.io/a/" ++ encodeURIComponent normalizedQuery
  let directLog := [NavAction.goto directUrl]
  let currentUrl := env.directPage.url
  let directOk :=
    match env.directResp with
    | some ok => ok && Js.includes currentUrl "/a/"
    | none => false
  let directAttempt : Option (Except DiscoveryJs.TrackerErr DiscoveryJs.TrackerResult) :=
    if directOk then
      match extractDocsFromApiPage env.directPage normalizedQuery with
      | .ok r => some (.ok r)
      | .error _ => none
    else none
  match directAttempt with
  | some r => (r, directLog)
  | none =>
    let searchUrl := "https://apitracker.io/search?q=" ++ encodeURIComponent normalizedQuery
    let log2 := directLog ++ [NavAction.goto searchUrl]
    let newUrl := env.searchPage.url
    if Js.includes newUrl "/a/" then
      (extractDocsFromApiPage env.searchPage normalizedQuery, log2)
    else
      match findBestSearchResult env.searchPage normalizedQuery with
      | none => (.error .providerNotFound, log2)
      | some sr =>
        (extractDocsFromApiPage (env.resultPage sr.url) normalizedQuery,
         log2 ++ [NavAction.goto sr.url])

end ApitrackerJs

namespace Browser

/-- Outcome of `page.goto` (Puppeteer is an external collaborator). -/
inductive GotoOutcome where
  | ok
  | timeout
  | failed

end Browser

/-- Errors the Swagger UI / Redoc extractors throw. -/
inductive ExtractErr where
  | pageLoad
  | extractionTimeout
  | authRequired

/-- Successful extraction result of the page extractors (their `format` is always json). -/
structure ExtractResult where
  spec : JsVal
  specInfo : SpecInfoRec
  sourceUrl : String

namespace SwaggerUiJs

open JsVal

/--
What the Swagger UI extractor can observe about a rendered page: the
navigation outcome, the auth-related DOM facts, and the results of its
three in-page layers (`window.ui` state, network interception, inline
scripts), each an external `page.evaluate` whose value is a JS value
(`jsNull` when the layer found nothing; the network interceptor stores
only pre-validated specs together with their URL).
-/
structure PageEnv where
  gotoOutcome : Browser.GotoOutcome
  bodyText : String
  hasPasswordInput : Bool
  hasLoginForm : Bool
  uiReady : Bool
  uiSpec : JsVal
  netSpec : Option (JsVal × String)
  scriptSpec : JsVal

/--
`detectAuthRequired` of the Swagger UI extractor: login-form elements
or auth wording anywhere in the page text.
-/
def detectAuthRequired (p : PageEnv) : Bool :=
  let pageText := Js.toLower p.bodyText
  (p.hasPasswordInput || p.hasLoginForm) ||
  (Js.includes pageText "log in" || Js.includes pageText "sign in" ||
   Js.includes pageText "authentication required" || Js.includes pageText "unauthorized")

/-- URL normalization at the top of `extractFromSwaggerUI`. -/
def normalizeExtractUrl (url : String) : String :=
  let t := Js.trim url
  if !(Js.startsWith t "http://") && !(Js.startsWith t "https://") then "https://" ++ t else t

/--
`extractFromSwaggerUI`: navigate, abort on an auth wall, then the
three layers in order (window.ui state, network capture, inline
scripts), validating whatever the first successful layer produced.
-/
def extractFromSwaggerUI (p : PageEnv) (url : String) : Except ExtractErr (Option ExtractResult) :=
  let normalizedUrl := normalizeExtractUrl url
  match p.gotoOutcome with
  | .timeout => .error .extractionTimeout
  | .failed => .error .pageLoad
  | .ok =>
    if detectAuthRequired p then .error .authRequired
    else
      let spec : JsVal := if p.uiReady then p.uiSpec else .jsNull
      let (spec, sourceUrl) :=
        if !(truthy spec) then
          match p.netSpec with
          | some (s, u) => (s, u)
          | none => (spec, normalizedUrl)
        else (spec, normalizedUrl)
      let spec := if !(truthy spec) then p.scriptSpec else spec
      if truthy spec then
        match validateSpec spec with
        | some info => .ok (some ⟨spec, info, sourceUrl⟩)
        | none => .ok none
      else .ok none

end SwaggerUiJs

namespace RedocJs

open JsVal

/-- What `extractSpecFromScripts` of the Redoc extractor can find. -/
inductive ScriptFind where
  | spec (v : JsVal)
  | specUrl (u : String)

/--
What the Redoc extractor can observe about a rendered page; the layers
mirror `extractFromRedoc`: global Redoc state, network interception,
script inspection (a spec literal or a spec URL, the latter fetched
through `fetchSpec`, which yields `jsNull` on any failure).
-/
structure PageEnv where
  gotoOutcome : Browser.GotoOutcome
  title : String
  h1 : Option String
  hasPasswordInput : Bool
  hasLoginForm : Bool
  redocReady : Bool
  stateSpec : JsVal
  netSpec : Option (JsVal × String)
  scriptFind : Option ScriptFind
  fetchSpec : String → JsVal

/--
`detectAuthRequired` of the Redoc extractor: login-form elements, auth
wording in the title, or auth wording in the primary heading.
-/
def detectAuthRequired (p : PageEnv) : Bool :=
  let title := Js.toLower p.title
  let h1Text := Js.toLower (p.h1.getD "")
  (p.hasPasswordInput || p.hasLoginForm) ||
  (Js.includes title "log in" || Js.includes title "sign in" ||
   Js.includes title "login" || Js.includes title "authentication") ||
  (Js.includes h1Text "log in" || Js.includes h1Text "sign in" ||
   Js.includes h1Text "authentication required")

/-- URL normalization at the top of `extractFromRedoc`. -/
def normalizeExtractUrl (url : String) : String :=
  let t := Js.trim url
  if !(Js.startsWith t "http://") && !(Js.startsWith t "https://") then "https://" ++ t else t

/--
`new URL(rel, base).href` for the absolute, root-relative and
path-relative URL shapes this extractor meets (the bases it is called
with are normalized page URLs with a path component).
-/
def resolveUrl (rel base : String) : String :=
  if Js.startsWith rel "http://" || Js.startsWith rel "https://" then rel
  else if Js.startsWith rel "/" then OpenapiJs.getBaseUrl base ++ rel
  else ⟨(base.data.reverse.dropWhile (fun c => !(c == '/'))).reverse⟩ ++ rel

/--
`extractFromRedoc`: navigate, abort on an auth wall, then the three
layers in order (Redoc global state, network capture, script
inspection with an optional spec-URL fetch), validating the result.
-/
def extractFromRedoc (p : PageEnv) (url : String) : Except ExtractErr (Option ExtractResult) :=
  let normalizedUrl := normalizeExtractUrl url
  match p.gotoOutcome with
  | .timeout => .error .extractionTimeout
  | .failed => .error .pageLoad
  | .ok =>
    if detectAuthRequired p then .error .authRequired
    else
      let spec : JsVal := if p.redocReady then p.stateSpec else .jsNull
      let (spec, sourceUrl) :=
        if !(truthy spec) then
          match p.netSpec with
          | some (s, u) => (s, u)
          | none => (spec, normalizedUrl)
        else (spec, normalizedUrl)
      let (spec, sourceUrl) :=
        if !(truthy spec) then
          match p.scriptFind with
          | some (.spec v) => (v, sourceUrl)
          | some (.specUrl u) =>
            let fetched := p.fetchSpec u
            if truthy fetched then (fetched, resolveUrl u normalizedUrl)
            else (fetched, sourceUrl)
          | none => (spec, sourceUrl)
        else (spec, sourceUrl)
      if truthy spec then
        match validateSpec spec with
        | some info => .ok (some ⟨spec, info, sourceUrl⟩)
        | none => .ok none
      else .ok none

end RedocJs

namespace DocsScraperJs

/-- A normalized endpoint as produced by the docs scraper. -/
structure Endpoint where
  method : String
  path : String
  description : String
  tags : List String
  operationId : Option String
deriving DecidableEq

/-- One rendered operation block: the text contents of its method / path / description elements. -/
structure OpBlock where
  methodText : Option String
  pathText : Option String
  descText : Option String

def methods7 : List String := ["GET", "POST", "PUT", "DELETE", "PATCH", "OPTIONS", "HEAD"]

def methods5 : List String := ["GET", "POST", "PUT", "DELETE", "PATCH"]

/--
Match of `/^(M1|M2|…)\s+(\/.+)/i` against a single-line text: a method
from the alternation (case-insensitively), at least one whitespace,
then a path that starts with `/` and has at least one more character.
Returns the upper-cased method and the raw path capture.
-/
def matchMethodSlash (methods : List String) (text : String) : Option (String × String) :=
  methods.findSome? (fun m =>
    if Js.startsWith (Js.toLower text) (Js.toLower m) then
      let rest := text.data.drop m.length
      let ws := rest.takeWhile (fun c => Js.isWs c)
      let r2 := rest.dropWhile (fun c => Js.isWs c)
      if ws.isEmpty then none
      else
        match r2 with
        | [] => none
        | c :: cs => if c == '/' && !cs.isEmpty then some (Js.toUpper m, ⟨c :: cs⟩) else none
    else none)

/--
Match of `/^(M1|M2|…)\s+(.+)/i` against a single-line text.  When only
whitespace follows the method, the greedy `\s+` backtracks one step,
so two or more trailing whitespace characters still match with the
last one as the capture.
-/
def matchMethodSpace (methods : List String) (text : String) : Option (String × String) :=
  methods.findSome? (fun m =>
    if Js.startsWith (Js.toLower text) (Js.toLower m) then
      let rest := text.data.drop m.length
      let ws := rest.takeWhile (fun c => Js.isWs c)
      let r2 := rest.dropWhile (fun c => Js.isWs c)
      if ws.isEmpty then none
      else if !r2.isEmpty then some (Js.toUpper m, ⟨r2⟩)
      else if ws.length ≥ 2 then some (Js.toUpper m, ⟨ws.drop (ws.length - 1)⟩)
      else none
    else none)

/-- `${method}:${path}` keys of the scraper's `seen` sets. -/
def keyOf (m p : String) : String := m ++ ":" ++ p

/--
The `seen`-set guarded push loop shared by the scalar and generic
extractions: first occurrence of a `(method, path)` key wins, later
ones are dropped.  Candidates are `(method, path, description)`.
-/
def dedupPush (seen : List String) (acc : List Endpoint) :
    List (String × String × String) → List String × List Endpoint
  | [] => (seen, acc)
  | (m, p, d) :: rest =>
    let key := keyOf m p
    if seen.contains key then dedupPush seen acc rest
    else dedupPush (seen ++ [key]) (acc ++ [⟨m, p, d, [], none⟩]) rest

/-- Qualification of one Scalar operation block (trimmed, upper-cased method from the 7-method list). -/
def scalarOpCandidate (op : OpBlock) : Option (String × String × String) :=
  match op.methodText, op.pathText with
  | some mt, some pt =>
    let m := Js.toUpper (Js.trim mt)
    let p := Js.trim pt
    if !(m == "") && !(p == "") && methods7.contains m then
      some (m, p, (op.descText.map Js.trim).getD "")
    else none
  | _, _ => none

/--
The DOM-heuristic part of `extractScalarEndpoints`: operation blocks,
then sidebar/nav links, then whole-page matches, all guarded by one
shared `seen` set.  `bodyMatches` is the match stream of the page-text
regex scan (the rendered body text is an external artifact).
-/
def extractScalarDom (ops : List OpBlock) (navTexts : List String)
    (bodyMatches : List (String × String)) : List Endpoint :=
  let (seen1, e1) := dedupPush [] [] (ops.filterMap scalarOpCandidate)
  if e1.isEmpty then
    let (seen2, e2) := dedupPush seen1 []
      (navTexts.filterMap (fun t =>
        (matchMethodSlash methods5 t).map (fun r => (r.1, Js.trim r.2, ""))))
    if e2.isEmpty then
      (dedupPush seen2 [] (bodyMatches.map (fun r => (Js.toUpper r.1, r.2, "")))).2
    else e2
  else e1

/--
Qualification of one Redoc operation block in the docs scraper: at
least one of the method/path elements present, and a nonempty path
starting with `/`.
-/
def redocOpCandidate (op : OpBlock) : Option Endpoint :=
  match op.methodText, op.pathText with
  | none, none => none
  | _, _ =>
    let method :=
      match op.methodText with
      | some t => let u := Js.toUpper (Js.trim t); if u == "" then "UNKNOWN" else u
      | none => "UNKNOWN"
    let path := (op.pathText.map Js.trim).getD ""
    if !(path == "") && Js.startsWith path "/" then
      some ⟨method, path, (op.descText.map Js.trim).getD "", [], none⟩
    else none

/--
The DOM-heuristic part of `extractRedocEndpoints` in the docs scraper:
operation blocks (appended without any `seen` set), then, if empty,
menu links matching `METHOD path`.
-/
def extractRedocDom (ops : List OpBlock) (menuTexts : List String) : List Endpoint :=
  let e1 := ops.filterMap redocOpCandidate
  if e1.isEmpty then
    menuTexts.filterMap (fun t =>
      (matchMethodSpace methods7 t).map (fun r => (⟨r.1, Js.trim r.2, "", [], none⟩ : Endpoint)))
  else e1

/-- Qualification of one Swagger UI operation block (both elements required; no dedup). -/
def swaggerOpCandidate (op : OpBlock) : Option Endpoint :=
  match op.methodText, op.pathText with
  | some mt, some pt =>
    let u := Js.toUpper (Js.trim mt)
    some ⟨if u == "" then "UNKNOWN" else u, Js.trim pt,
          (op.descText.map Js.trim).getD "", [], none⟩
  | _, _ => none

/-- First `/`-starting cell after the method cell, with the following cell as description. -/
def findPathCell : List String → Option (String × String)
  | [] => none
  | c :: rest =>
    if Js.startsWith c "/" then some (c, rest.headD "")
    else findPathCell rest

/-- Table-row candidates of the generic extraction: a method cell among the first three cells. -/
def rowCandidates (cells : List String) : List (String × String × String) :=
  (List.range (min cells.length 3)).filterMap (fun i =>
    let cell := cells.getD i ""
    if methods5.contains (Js.toUpper cell) then
      match findPathCell (cells.drop (i + 1)) with
      | some (p, nxt) => some (Js.toUpper cell, p, nxt)
      | none => none
    else none)

/-- `path.replace(/['"]+$/, '')`. -/
def stripTrailingQuotes (s : String) : String :=
  ⟨(s.data.reverse.dropWhile (fun c => c.toNat == 39 || c.toNat == 34)).reverse⟩

/--
`extractGenericEndpoints`: code-block matches and table rows through
one shared `seen` set, then, if empty, whole-page matches.  The two
match streams come from regex scans of external page text.
-/
def extractGenericEndpoints (codeMatches : List (String × String))
    (tableRows : List (List String)) (bodyMatches : List (String × String)) : List Endpoint :=
  let (seen1, e1) := dedupPush [] []
    (codeMatches.map (fun r => (Js.toUpper r.1, r.2, "")))
  let e1 := e1.map (fun e => { e with path := stripTrailingQuotes e.path })
  let (seen2, e2) := dedupPush seen1 e1 (tableRows.flatMap rowCandidates)
  if e2.isEmpty then
    (dedupPush seen2 [] (bodyMatches.map (fun r => (Js.toUpper r.1, r.2, "")))).2
  else e2

/-- API metadata as returned by `extractApiInfo` (an external page observation). -/
structure ApiInfo where
  title : String
  version : Option String
  description : Option String

/--
What the docs scraper can observe about a rendered page.  The page's
auth-wall facts (`hasPasswordInput`, `hasLoginForm`) are part of the
page but are never read by this module.  The per-framework spec-layer
results are external `page.evaluate` outcomes; the DOM inputs feed the
heuristics above.
-/
structure ScrapePage where
  gotoOutcome : Browser.GotoOutcome
  hasSwaggerUiMarkers : Bool
  hasRedocMarkers : Bool
  hasScalarMarkers : Bool
  hasHttpMethodText : Bool
  hasApiPathText : Bool
  hasPasswordInput : Bool
  hasLoginForm : Bool
  swaggerSpecEndpoints : Option (List Endpoint)
  swaggerOps : List OpBlock
  redocStateEndpoints : Option (List Endpoint)
  redocOps : List OpBlock
  redocMenuTexts : List String
  scalarInlineEndpoints : Option (List Endpoint)
  scalarSpecUrl : Option String
  scalarFetched : String → Option (List Endpoint)
  scalarOps : List OpBlock
  scalarNavTexts : List String
  scalarBodyMatches : List (String × String)
  genericCodeMatches : List (String × String)
  genericTableRows : List (List String)
  genericBodyMatches : List (String × String)
  apiInfo : ApiInfo

/-- `detectFramework`: Swagger UI, then Redoc, then Scalar markers, then the generic heuristic. -/
def detectFramework (p : ScrapePage) : Option String :=
  if p.hasSwaggerUiMarkers then some "swagger-ui"
  else if p.hasRedocMarkers then some "redoc"
  else if p.hasScalarMarkers then some "scalar"
  else if p.hasHttpMethodText && p.hasApiPathText then some "generic"
  else none

/-- `extractSwaggerUiEndpoints`: spec layer from `window.ui`, then DOM blocks. -/
def extractSwaggerUiEndpoints (p : ScrapePage) : List Endpoint :=
  match p.swaggerSpecEndpoints with
  | some l => if l.length > 0 then l else p.swaggerOps.filterMap swaggerOpCandidate
  | none => p.swaggerOps.filterMap swaggerOpCandidate

/-- `extractRedocEndpoints`: Redoc state layer, then DOM heuristics. -/
def extractRedocEndpoints (p : ScrapePage) : List Endpoint :=
  match p.redocStateEndpoints with
  | some l => if l.length > 0 then l else extractRedocDom p.redocOps p.redocMenuTexts
  | none => extractRedocDom p.redocOps p.redocMenuTexts

/-- `extractScalarEndpoints`: inline-script spec, then a fetched spec URL, then DOM heuristics. -/
def extractScalarEndpoints (p : ScrapePage) : List Endpoint :=
  let dom := extractScalarDom p.scalarOps p.scalarNavTexts p.scalarBodyMatches
  match p.scalarInlineEndpoints with
  | some l =>
    if l.length > 0 then l
    else
      match p.scalarSpecUrl with
      | some u =>
        match p.scalarFetched u with
        | some fetched => if fetched.length > 0 then fetched else dom
        | none => dom
      | none => dom
  | none =>
    match p.scalarSpecUrl with
    | some u =>
      match p.scalarFetched u with
      | some fetched => if fetched.length > 0 then fetched else dom
      | none => dom
    | none => dom

/-- `extractEndpoints` dispatch (an unknown forced framework throws). -/
def extractEndpoints (p : ScrapePage) (framework : String) : Except Unit (List Endpoint) :=
  if framework == "swagger-ui" then .ok (extractSwaggerUiEndpoints p)
  else if framework == "redoc" then .ok (extractRedocEndpoints p)
  else if framework == "scalar" then .ok (extractScalarEndpoints p)
  else if framework == "generic" then
    .ok (extractGenericEndpoints p.genericCodeMatches p.genericTableRows p.genericBodyMatches)
  else .error ()

/-- Errors of `scrapeEndpoints` — note there is no authentication-related outcome. -/
inductive ScrapeErr where
  | pageLoad
  | frameworkNotDetected
  | extraction

/-- Result shape of `scrapeEndpoints` (`extractedAt` timestamp elided). -/
structure ScrapeResult where
  url : String
  framework : String
  apiInfo : ApiInfo
  endpoints : List Endpoint

/--
`scrapeEndpoints`: navigate, detect (or force) a framework, extract
endpoints and API info.  No auth-wall check occurs at any point.
-/
def scrapeEndpoints (p : ScrapePage) (url : String) (forcedFramework : Option String) :
    Except ScrapeErr ScrapeResult :=
  match p.gotoOutcome with
  | .timeout => .error .pageLoad
  | .failed => .error .pageLoad
  | .ok =>
    let framework :=
      match forcedFramework with
      | some f => some f
      | none => detectFramework p
    match framework with
    | none => .error .frameworkNotDetected
    | some fw =>
      match extractEndpoints p fw with
      | .error _ => .error .extraction
      | .ok endpoints => .ok ⟨url, fw, p.apiInfo, endpoints⟩

end DocsScraperJs

namespace SpecSide

open JsVal

/--
Modelled from the spec: a parsed document "declares a 3.x OpenAPI
version" — a truthy string `openapi` field starting with `3.` on an
object.
-/
def declaresOpenapi3 (v : JsVal) : Bool :=
  truthy v && isObjectType v &&
  truthy (getOpenapi v) && isString (getOpenapi v) &&
  Js.startsWith (strVal (getOpenapi v)) "3."

/--
Modelled from the spec: a parsed document "declares Swagger 2.0" — a
truthy `swagger` field strictly equal to the string `2.0` on an object.
-/
def declaresSwagger2 (v : JsVal) : Bool :=
  truthy v && isObjectType v &&
  truthy (getSwagger v) && eqStr (getSwagger v) "2.0"

/--
The spec's validation policy, full form: a 3.x OpenAPI document needs
`info` and at least one of paths/webhooks/components; otherwise a
Swagger 2.0 document needs `info` and `paths`.
-/
def acceptFull (v : JsVal) : Bool :=
  if declaresOpenapi3 v then
    truthy (getInfo v) &&
    (truthy (getPaths v) || truthy (getWebhooks v) || truthy (getComponents v))
  else
    declaresSwagger2 v && truthy (getInfo v) && truthy (getPaths v)

/--
The loose validation policy: a 3.x OpenAPI document needs only `info`;
otherwise a Swagger 2.0 document needs `info` and `paths`.
-/
def acceptLoose (v : JsVal) : Bool :=
  if declaresOpenapi3 v then truthy (getInfo v)
  else declaresSwagger2 v && truthy (getInfo v) && truthy (getPaths v)

/-- Endpoint built from a `(method, path, description)` candidate. -/
def mkEp (t : String × String × String) : DocsScraperJs.Endpoint :=
  ⟨t.1, t.2.1, t.2.2, [], none⟩

/--
First-wins deduplication by `(method, path)` key relative to a set of
already-seen keys: the first candidate with a given key is kept with
its description, later ones are dropped.
-/
def firstWins : List (String × String × String) → List String → List (String × String × String)
  | [], _ => []
  | (m, p, d) :: rest, seen =>
    if seen.contains (DocsScraperJs.keyOf m p) then firstWins rest seen
    else (m, p, d) :: firstWins rest (seen ++ [DocsScraperJs.keyOf m p])

/-- The keys of a candidate list. -/
def keysOf (l : List (String × String × String)) : List String :=
  l.map (fun t => DocsScraperJs.keyOf t.1 t.2.1)

end SpecSide

namespace Fix

open JsVal

/-- A minimal `info` object with title and version strings. -/
def info3 : JsVal :=
  obj undef undef undef undef undef undef (str "T") (str "1")

/-- A minimal valid OpenAPI 3.x document (truthy object `paths`). -/
def doc3 : JsVal :=
  obj (str "3.0.0") undef info3
    (obj undef undef undef undef undef undef undef undef) undef undef undef undef

/-- Spec info of `doc3` under the throwing validator. -/
def doc3Info : SpecInfoRec := ⟨"openapi", str "3.0.0", str "T", str "1"⟩

/--
HTTP oracle for the C4 probing scenario: 404 everywhere except the
third conventional path, which answers with a YAML body.
-/
def env4 : OpenapiJs.Env :=
  ⟨fun u => if u == "https://example.com/openapi.yml" then
      .resp true "application/yaml" "specbody"
    else .resp false "" "",
   fun _ => none,
   fun s => if s == "specbody" then some doc3 else none⟩

/--
HTTP oracle for the C1 scenario: the explicit direct reference
`/openapi.json` answers 200 with a body that is not JSON, while
`/openapi.yaml` answers with a valid YAML spec.
-/
def envC1 : OpenapiJs.Env :=
  ⟨fun u =>
    if u == "https://spec.example/openapi.json" then .resp true "application/json" "notjson"
    else if u == "https://spec.example/openapi.yaml" then .resp true "application/yaml" "goodspec"
    else .resp false "" "",
   fun _ => none,
   fun s => if s == "goodspec" then some doc3 else none⟩

/-- Apitracker environment where the direct slug page resolves and carries a docs link. -/
def envDirect : ApitrackerJs.TrackerEnv :=
  ⟨some true,
   ⟨"https://apitracker.io/a/n8n",
    [⟨some "https://docs.n8n.io/api/", "Developer Portal", ""⟩]⟩,
   ⟨"", []⟩,
   fun _ => ⟨"", []⟩⟩

/-- Apitracker environment where nothing matches anywhere. -/
def envMiss : ApitrackerJs.TrackerEnv :=
  ⟨some false,
   ⟨"https://apitracker.io/err", []⟩,
   ⟨"https://apitracker.io/search?q=doesnotexistco", []⟩,
   fun _ => ⟨"", []⟩⟩

/--
A Scalar-framework docs page sitting behind a password form: auth-wall
signals present, one extractable operation block.
-/
def authScalarPage : DocsScraperJs.ScrapePage :=
  ⟨Browser.GotoOutcome.ok, false, false, true, false, false, true, true,
   none, [], none, [], [], none, none, fun _ => none,
   [⟨some "GET", some "/users", some "List users"⟩], [], [], [], [], [],
   ⟨"Docs", none, none⟩⟩

/-- A Swagger UI page behind a password form. -/
def authSwPage : SwaggerUiJs.PageEnv :=
  ⟨Browser.GotoOutcome.ok, "Please sign in", true, false, false, JsVal.jsNull, none, JsVal.jsNull⟩

/-- A Redoc page behind a login title. -/
def authRdPage : RedocJs.PageEnv :=
  ⟨Browser.GotoOutcome.ok, "Login required", none, true, false, false, JsVal.jsNull, none, none,
   fun _ => JsVal.jsNull⟩

/-- An OpenAPI 3.x document with `info` but neither paths, webhooks nor components. -/
def docLoose : JsVal :=
  JsVal.obj (JsVal.str "3.0.0") JsVal.undef info3
    JsVal.undef JsVal.undef JsVal.undef JsVal.undef JsVal.undef

/--
A Redoc-framework docs page whose DOM carries two operation blocks
with the same method and path but different descriptions.
-/
def dupRedocPage : DocsScraperJs.ScrapePage :=
  ⟨Browser.GotoOutcome.ok, false, true, false, false, false, false, false,
   none, [], none,
   [⟨some "GET", some "/users", some "first"⟩, ⟨some "GET", some "/users", some "second"⟩],
   [], none, none, fun _ => none, [], [], [], [], [], [],
   ⟨"Docs", none, none⟩⟩

end Fix

-- Theorems ------------------------------------------------------------------

namespace Js

theorem lowerChar_toNat_of_upper (c : Char) (h : 65 ≤ c.toNat ∧ c.toNat ≤ 90) :
    (lowerChar c).toNat = c.toNat + 32 := by
  unfold lowerChar
  rw [dif_pos h]
  rfl

theorem lowerChar_eq_self (c : Char) (h : ¬(65 ≤ c.toNat ∧ c.toNat ≤ 90)) :
    lowerChar c = c := by
  unfold lowerChar
  rw [dif_neg h]

theorem lowerChar_idem (c : Char) : lowerChar (lowerChar c) = lowerChar c := by
  by_cases h : 65 ≤ c.toNat ∧ c.toNat ≤ 90
  · have h1 := lowerChar_toNat_of_upper c h
    have h2 : ¬(65 ≤ (lowerChar c).toNat ∧ (lowerChar c).toNat ≤ 90) := by omega
    exact lowerChar_eq_self _ h2
  · rw [lowerChar_eq_self c h, lowerChar_eq_self c h]

theorem isWs_lowerChar (c : Char) : isWs (lowerChar c) = isWs c := by
  by_cases h : 65 ≤ c.toNat ∧ c.toNat ≤ 90
  · have h1 := lowerChar_toNat_of_upper c h
    have l : isWs (lowerChar c) = false := by
      simp only [isWs, Bool.or_eq_false_iff, beq_eq_false_iff_ne, ne_eq]
      omega
    have r : isWs c = false := by
      simp only [isWs, Bool.or_eq_false_iff, beq_eq_false_iff_ne, ne_eq]
      omega
    rw [l, r]
  · rw [lowerChar_eq_self c h]

theorem trimLeft_idem (l : List Char) :
    trimLeftChars (trimLeftChars l) = trimLeftChars l := by
  induction l with
  | nil => rfl
  | cons c cs ih =>
    by_cases h : isWs c = true
    · simp [trimLeftChars, List.dropWhile_cons, h] at ih ⊢
      exact ih
    · simp [trimLeftChars, List.dropWhile_cons, h]

theorem trimRightChars_cons (c : Char) (cs : List Char) :
    trimRightChars (c :: cs) =
      if ((trimRightChars cs).isEmpty && isWs c) = true then [] else c :: trimRightChars cs := by
  simp only [trimRightChars]

theorem trimRight_idem (l : List Char) :
    trimRightChars (trimRightChars l) = trimRightChars l := by
  induction l with
  | nil => rfl
  | cons c cs ih =>
    rw [trimRightChars_cons]
    by_cases h : ((trimRightChars cs).isEmpty && isWs c) = true
    · rw [if_pos h]
      rfl
    · rw [if_neg h, trimRightChars_cons, ih, if_neg h]

theorem isEmpty_false_iff (l : List Char) : l.isEmpty = false ↔ l ≠ [] := by
  cases l <;> simp

theorem trimLeft_trimRight_comm (l : List Char) :
    trimLeftChars (trimRightChars l) = trimRightChars (trimLeftChars l) := by
  induction l with
  | nil => rfl
  | cons c cs ih =>
    rw [trimRightChars_cons]
    by_cases hw : isWs c = true
    · by_cases hr : (trimRightChars cs).isEmpty = true
      · have hcs : trimRightChars cs = [] := by
          cases h : trimRightChars cs
          · rfl
          · rw [h] at hr; simp at hr
        rw [if_pos (by rw [hr, hw]; rfl)]
        have h2 : trimLeftChars (c :: cs) = trimLeftChars cs := by
          simp [trimLeftChars, List.dropWhile_cons, hw]
        rw [h2, ← ih, hcs]
      · have hb : (trimRightChars cs).isEmpty = false := by
          cases h : (trimRightChars cs).isEmpty
          · rfl
          · exact absurd h hr
        rw [if_neg (by rw [hb]; simp)]
        have h2 : trimLeftChars (c :: trimRightChars cs) = trimLeftChars (trimRightChars cs) := by
          simp [trimLeftChars, List.dropWhile_cons, hw]
        have h3 : trimLeftChars (c :: cs) = trimLeftChars cs := by
          simp [trimLeftChars, List.dropWhile_cons, hw]
        rw [h2, h3, ih]
    · have hwf : isWs c = false := by
        cases h : isWs c
        · rfl
        · exact absurd h hw
      rw [if_neg (by rw [hwf]; simp)]
      have h2 : trimLeftChars (c :: trimRightChars cs) = c :: trimRightChars cs := by
        simp [trimLeftChars, List.dropWhile_cons, hwf]
      have h3 : trimLeftChars (c :: cs) = c :: cs := by
        simp [trimLeftChars, List.dropWhile_cons, hwf]
      rw [h2, h3, trimRightChars_cons, hwf]
      simp

theorem trimLeft_map_lowerChar (l : List Char) :
    trimLeftChars (l.map lowerChar) = (trimLeftChars l).map lowerChar := by
  induction l with
  | nil => rfl
  | cons c cs ih =>
    by_cases h : isWs c = true
    · have h2 : isWs (lowerChar c) = true := by rw [isWs_lowerChar]; exact h
      simp [trimLeftChars, List.dropWhile_cons, h, h2] at ih ⊢
      exact ih
    · have h2 : isWs (lowerChar c) = false := by
        rw [isWs_lowerChar]
        cases hx : isWs c
        · rfl
        · exact absurd hx h
      simp [trimLeftChars, List.dropWhile_cons, h2, h]

theorem isEmpty_map (f : Char → Char) (l : List Char) : (l.map f).isEmpty = l.isEmpty := by
  cases l <;> rfl

theorem trimRight_map_lowerChar (l : List Char) :
    trimRightChars (l.map lowerChar) = (trimRightChars l).map lowerChar := by
  induction l with
  | nil => rfl
  | cons c cs ih =>
    rw [List.map_cons, trimRightChars_cons, trimRightChars_cons, ih,
        isEmpty_map, isWs_lowerChar]
    by_cases h : ((trimRightChars cs).isEmpty && isWs c) = true
    · rw [if_pos h, if_pos h]
      rfl
    · rw [if_neg h, if_neg h]
      rfl

theorem map_lowerChar_idem (l : List Char) :
    (l.map lowerChar).map lowerChar = l.map lowerChar := by
  induction l with
  | nil => rfl
  | cons c cs ih => simp [lowerChar_idem, ih]

theorem toLower_trim_idem (s : String) :
    toLower (trim (toLower (trim s))) = toLower (trim s) := by
  cases s with
  | mk l =>
    show (⟨(trimRightChars (trimLeftChars ((trimRightChars (trimLeftChars l)).map
        lowerChar))).map lowerChar⟩ : String) =
      ⟨(trimRightChars (trimLeftChars l)).map lowerChar⟩
    rw [trimLeft_map_lowerChar, trimRight_map_lowerChar, map_lowerChar_idem,
        trimLeft_trimRight_comm, trimLeft_idem, trimRight_idem]

end Js

/--
C7: the cache key is a pure function of the trimmed, lower-cased input
string: for every string s, `generateCacheKey` of s and of the trimmed
lower-case form of s agree, so cache operations on " FOO "-style
variants and on "foo" address the same cache entry.
-/
theorem C7_cache_key_normalization_invariant :
    (∀ s : String,
      CacheJs.generateCacheKey s = CacheJs.generateCacheKey (Js.toLower (Js.trim s))) ∧
    CacheJs.generateCacheKey " FOO " = CacheJs.generateCacheKey "foo" := by
  constructor
  · intro s
    simp only [CacheJs.generateCacheKey, Js.toLower_trim_idem]
  · have h : Js.toLower (Js.trim " FOO ") = Js.toLower (Js.trim "foo") := by decide
    simp only [CacheJs.generateCacheKey, h]

/--
C10: for every query that is missing, not a string, empty, or
whitespace-only, `lookupProvider` fails with ProviderNotFound
immediately, with an empty effect log: the discovery cache is never
read and the search surface is never contacted.
-/
theorem C10_invalid_query_rejected_before_effects
    (q : JsVal) (force : Bool) (now : Nat) (env : DiscoveryJs.DiscoveryEnv)
    (h : JsVal.isString q = false ∨ Js.trim (JsVal.strVal q) = "") :
    DiscoveryJs.lookupProvider q force now env =
      (Except.error DiscoveryJs.DiscErr.providerNotFound, []) := by
  rcases h with h | h
  · simp [DiscoveryJs.lookupProvider, h]
  · have hguard : (Js.trim (JsVal.strVal q) == "") = true := by
      rw [h]
      decide
    simp [DiscoveryJs.lookupProvider, hguard]

/-- Witness for C10 at the concrete query `undefined`. -/
theorem C10_invalid_query_rejected_before_effects_witness :
    DiscoveryJs.lookupProvider JsVal.undef false 0
      ⟨[], fun _ => Except.error DiscoveryJs.TrackerErr.searchError⟩ =
      (Except.error DiscoveryJs.DiscErr.providerNotFound, []) :=
  C10_invalid_query_rejected_before_effects JsVal.undef false 0 _ (Or.inl rfl)

/--
C8: a manifest entry whose blob file is missing on disk makes
`getCached` fail with the NotFound outcome, not with an I/O or
internal error.
-/
theorem C8_missing_blob_reads_as_not_found
    (url : String) (now : Nat) (st : CacheJs.CacheState) (entry : CacheJs.ManifestEntry)
    (hentry : st.manifest.lookup (CacheJs.generateCacheKey url) = some entry)
    (hfresh : CacheJs.isExpired entry now = false)
    (hfile : st.files.lookup entry.filename = none) :
    CacheJs.getCached url false now st = Except.error CacheJs.CacheErr.notFound := by
  simp [CacheJs.getCached, hentry, hfresh, hfile]

/-- Witness for C8: a one-entry manifest with no blob files at all. -/
theorem C8_missing_blob_reads_as_not_found_witness :
    CacheJs.getCached "https://api.example.com/openapi.json" false 5
      ⟨[(CacheJs.generateCacheKey "https://api.example.com/openapi.json",
         ⟨"https://api.example.com/openapi.json", "blob.json", 0, none,
          ⟨JsVal.undef, JsVal.undef, "unknown"⟩⟩)], []⟩ =
      Except.error CacheJs.CacheErr.notFound :=
  C8_missing_blob_reads_as_not_found "https://api.example.com/openapi.json" 5
    ⟨[(CacheJs.generateCacheKey "https://api.example.com/openapi.json",
       ⟨"https://api.example.com/openapi.json", "blob.json", 0, none,
        ⟨JsVal.undef, JsVal.undef, "unknown"⟩⟩)], []⟩
    ⟨"https://api.example.com/openapi.json", "blob.json", 0, none,
     ⟨JsVal.undef, JsVal.undef, "unknown"⟩⟩
    (by simp [List.lookup]) rfl rfl

namespace CacheJs

theorem lookup_assocSet_self {β : Type} (k : String) (v : β) (l : List (String × β)) :
    (assocSet k v l).lookup k = some v := by
  simp [assocSet, List.lookup]

theorem getCached_after_setCache (url : String) (spec : JsVal) (ttl : Option Nat)
    (fmt : String) (now t1 : Nat) (ign : Bool) (st : CacheState) :
    getCached url ign t1 (setCache url spec ttl fmt now st).1 =
      (let expiresAt : Option Nat :=
        match ttl with
        | some t => if t != 0 then some (now + t) else none
        | none => none
      if !ign && (match expiresAt with | none => false | some e => decide (e < t1)) then
        Except.error (CacheErr.expired expiresAt)
      else Except.ok ⟨url, now, expiresAt, fmt, (normalizeSpec spec fmt).type,
        (normalizeSpec spec fmt).specVersion, spec⟩) := by
  simp only [getCached, setCache, lookup_assocSet_self, isExpired]

end CacheJs

/--
C2 counterexample: `setCache` with the finite TTL `0` produces an
entry that never expires (`ttl ? … : null` treats 0 as falsy), so
`getCached` after `cachedAt + ttl` succeeds instead of failing with
the Expired outcome.
-/
theorem C2_counterexample_ttl_zero_never_expires :
    (CacheJs.getCached "https://api.example.com/openapi.json" false 1005
      (CacheJs.setCache "https://api.example.com/openapi.json"
        (JsVal.obj (JsVal.str "3.0.0") JsVal.undef
          (JsVal.obj JsVal.undef JsVal.undef JsVal.undef JsVal.undef JsVal.undef JsVal.undef
            (JsVal.str "Pets") (JsVal.str "1.0"))
          (JsVal.obj JsVal.undef JsVal.undef JsVal.undef JsVal.undef JsVal.undef JsVal.undef
            JsVal.undef JsVal.undef)
          JsVal.undef JsVal.undef JsVal.undef JsVal.undef)
        (some 0) "json" 1000 ⟨[], []⟩).1).isOk = true := by
  rw [CacheJs.getCached_after_setCache]
  rfl

/--
C2 (amended): for every key, value and *positive* finite ttl, after
`setCache(k, v, {ttl})` a `getCached(k)` strictly before
`cachedAt + ttl` returns the stored value, and a `getCached(k)` after
`cachedAt + ttl` fails with the Expired outcome, an error distinct
from NotFound.  (The original claim, over every finite ttl, fails at
ttl = 0: JS treats 0 as falsy and stores a never-expiring entry.)
-/
theorem C2_amended_ttl_roundtrip (url fmt : String) (spec : JsVal)
    (st : CacheJs.CacheState) (now t t1 t2 : Nat)
    (hpos : 0 < t) (h1 : t1 < now + t) (h2 : now + t < t2) :
    CacheJs.getCached url false t1 (CacheJs.setCache url spec (some t) fmt now st).1 =
      Except.ok ⟨url, now, some (now + t), fmt, (CacheJs.normalizeSpec spec fmt).type,
        (CacheJs.normalizeSpec spec fmt).specVersion, spec⟩ ∧
    CacheJs.getCached url false t2 (CacheJs.setCache url spec (some t) fmt now st).1 =
      Except.error (CacheJs.CacheErr.expired (some (now + t))) ∧
    Except.error (CacheJs.CacheErr.expired (some (now + t))) ≠
      (Except.error CacheJs.CacheErr.notFound : Except CacheJs.CacheErr CacheJs.CachedData) := by
  have ht : (t != 0) = true := by
    simp only [bne_iff_ne, ne_eq]
    omega
  have hd1 : decide (now + t < t1) = false := by
    simp only [decide_eq_false_iff_not, not_lt]
    omega
  have hd2 : decide (now + t < t2) = true := by
    simp only [decide_eq_true_eq]
    omega
  refine ⟨?_, ?_, ?_⟩
  · rw [CacheJs.getCached_after_setCache]
    simp only [ht, if_true, hd1, Bool.not_false, Bool.true_and, if_false]
    simp
  · rw [CacheJs.getCached_after_setCache]
    simp only [ht, if_true, hd2, Bool.not_false, Bool.true_and, if_true]
  · simp

/-- Witness for the amended C2 at ttl 100, read times 1050 and 2000. -/
theorem C2_amended_ttl_roundtrip_witness :
    CacheJs.getCached "https://api.example.com/openapi.json" false 1050
      (CacheJs.setCache "https://api.example.com/openapi.json" JsVal.arr (some 100)
        "json" 1000 ⟨[], []⟩).1 =
      Except.ok ⟨"https://api.example.com/openapi.json", 1000, some 1100, "json",
        (CacheJs.normalizeSpec JsVal.arr "json").type,
        (CacheJs.normalizeSpec JsVal.arr "json").specVersion, JsVal.arr⟩ ∧
    CacheJs.getCached "https://api.example.com/openapi.json" false 2000
      (CacheJs.setCache "https://api.example.com/openapi.json" JsVal.arr (some 100)
        "json" 1000 ⟨[], []⟩).1 =
      Except.error (CacheJs.CacheErr.expired (some 1100)) ∧
    Except.error (CacheJs.CacheErr.expired (some 1100)) ≠
      (Except.error CacheJs.CacheErr.notFound : Except CacheJs.CacheErr CacheJs.CachedData) :=
  C2_amended_ttl_roundtrip "https://api.example.com/openapi.json" "json" JsVal.arr
    ⟨[], []⟩ 1000 100 1050 2000 (by decide) (by decide) (by decide)

namespace OpenapiJs

theorem probeLoop_first_success (env : Env) (baseUrl : String)
    (pre post : List String) (p : String) (r : FetchSuccess)
    (hfail : ∀ q ∈ pre, tryFetchSpec env (baseUrl ++ q) = none)
    (hsucc : tryFetchSpec env (baseUrl ++ p) = some r) :
    probeLoop env baseUrl (pre ++ p :: post) =
      (some r, (pre ++ [p]).map (fun q => baseUrl ++ q)) := by
  induction pre with
  | nil =>
    simp [probeLoop, hsucc]
  | cons q qs ih =>
    have hq : tryFetchSpec env (baseUrl ++ q) = none := hfail q (by simp)
    have ihq := ih (fun x hx => hfail x (by simp [hx]))
    simp [probeLoop, hq, ihq]

end OpenapiJs

/--
C4: when the target is not a direct spec reference, probing walks the
fixed ordered path list; if the first N probes all fail (any failure:
non-2xx, timeout, HTML body, parse or validation failure — all of
which make `tryFetchSpec` yield null) and probe N+1 succeeds, then
exactly the N+1 probe URLs are fetched, the (N+1)th result is
returned, and none of the earlier failures surfaces as an error.
-/
theorem C4_probing_stops_at_first_success (env : OpenapiJs.Env) (url : String)
    (pre post : List String) (p : String) (r : OpenapiJs.FetchSuccess)
    (hdir : OpenapiJs.isDirectSpecUrl (OpenapiJs.normalizeUrl url) = false)
    (hsplit : OpenapiJs.COMMON_SPEC_PATHS = pre ++ p :: post)
    (hfail : ∀ q ∈ pre, OpenapiJs.tryFetchSpec env (OpenapiJs.normalizeUrl url ++ q) = none)
    (hsucc : OpenapiJs.tryFetchSpec env (OpenapiJs.normalizeUrl url ++ p) = some r) :
    OpenapiJs.fetchOpenAPISpecTrace env url true =
      (some (OpenapiJs.mkResult r),
       (pre ++ [p]).map (fun q => OpenapiJs.normalizeUrl url ++ q)) := by
  simp only [OpenapiJs.fetchOpenAPISpecTrace, hdir, Bool.false_eq_true, if_false, if_true,
    hsplit]
  rw [OpenapiJs.probeLoop_first_success env (OpenapiJs.normalizeUrl url) pre post p r hfail hsucc]
  rfl

/--
Witness for C4: base target example.com, 404 on the first two
conventional paths, success on the third.
-/
theorem C4_probing_stops_at_first_success_witness :
    OpenapiJs.fetchOpenAPISpecTrace Fix.env4 "example.com" true =
      (some (OpenapiJs.mkResult
        ⟨Fix.doc3, OpenapiJs.Format.yaml, Fix.doc3Info, "https://example.com/openapi.yml"⟩),
       (["/openapi.json", "/openapi.yaml"] ++ ["/openapi.yml"]).map
         (fun q => OpenapiJs.normalizeUrl "example.com" ++ q)) :=
  C4_probing_stops_at_first_success Fix.env4 "example.com"
    ["/openapi.json", "/openapi.yaml"]
    ["/swagger.json", "/swagger.yaml", "/swagger.yml",
     "/api-docs", "/api-docs.json", "/api-docs.yaml", "/api-docs.yml",
     "/v2/api-docs", "/v3/api-docs",
     "/docs/openapi.json", "/docs/swagger.json", "/docs/openapi.yaml", "/docs/swagger.yaml",
     "/api/openapi.json", "/api/swagger.json", "/spec/openapi.json",
     "/swagger/v2/api-docs", "/swagger/v3/api-docs"]
    "/openapi.yml"
    ⟨Fix.doc3, OpenapiJs.Format.yaml, Fix.doc3Info, "https://example.com/openapi.yml"⟩
    rfl rfl
    (by
      intro q hq
      rcases List.mem_pair.mp hq with h | h <;> subst h <;> rfl)
    rfl

/--
C1 counterexample: for the explicit direct reference
`https://spec.example/openapi.json` the body fails JSON parsing (a
fatal ParseError inside the attempt), yet no terminal error reaches
the caller — `fetchOpenAPISpec` silently continues probing further
conventional paths and returns the document found at
`/openapi.yaml`, probing three URLs in total.
-/
theorem C1_counterexample_direct_failure_not_terminal :
    OpenapiJs.parseSpecContent Fix.envC1 "notjson" "https://spec.example/openapi.json" =
      Except.error OpenapiJs.ParseFail.json ∧
    OpenapiJs.fetchOpenAPISpecTrace Fix.envC1 "https://spec.example/openapi.json" true =
      (some ⟨Fix.doc3, OpenapiJs.Format.yaml, Fix.doc3Info, "https://spec.example/openapi.yaml"⟩,
       ["https://spec.example/openapi.json", "https://spec.example/openapi.json",
        "https://spec.example/openapi.yaml"]) :=
  ⟨rfl, rfl⟩

/--
C1 (amended): for an explicit direct specification reference whose
fetched body fails parsing (including a JSON parse failure on an
explicit .json extension) or fails structural validation, the failure
is *not* surfaced to the caller as a terminal error: the direct
attempt yields null and the acquisition silently falls back to
probing the conventional paths from the base origin.
-/
theorem C1_amended_direct_failure_falls_back_to_probing
    (env : OpenapiJs.Env) (url ct body : String) (pf : OpenapiJs.ParseFail)
    (s : JsVal) (f : OpenapiJs.Format) (er : InvalidReason)
    (hdir : OpenapiJs.isDirectSpecUrl (OpenapiJs.normalizeUrl url) = true)
    (hresp : env.http (OpenapiJs.normalizeUrl url) = .resp true ct body)
    (hbad : OpenapiJs.parseSpecContent env body (OpenapiJs.normalizeUrl url) = .error pf ∨
      (OpenapiJs.parseSpecContent env body (OpenapiJs.normalizeUrl url) = .ok (s, f) ∧
       OpenapiJs.validateSpec s = .error er)) :
    OpenapiJs.tryFetchSpec env (OpenapiJs.normalizeUrl url) = none ∧
    OpenapiJs.fetchOpenAPISpecTrace env url true =
      ((OpenapiJs.probeLoop env (OpenapiJs.getBaseUrl (OpenapiJs.normalizeUrl url))
          OpenapiJs.COMMON_SPEC_PATHS).1.map OpenapiJs.mkResult,
       OpenapiJs.normalizeUrl url ::
         (OpenapiJs.probeLoop env (OpenapiJs.getBaseUrl (OpenapiJs.normalizeUrl url))
           OpenapiJs.COMMON_SPEC_PATHS).2) := by
  have tnone : OpenapiJs.tryFetchSpec env (OpenapiJs.normalizeUrl url) = none := by
    unfold OpenapiJs.tryFetchSpec
    rw [hresp]
    by_cases hhtml :
        (Js.includes ct "text/html" && !Js.startsWith (Js.trim body) "\x7b") = true
    · simp [hhtml]
    · rcases hbad with hp | ⟨hp, hv⟩
      · simp [hhtml, hp]
      · simp [hhtml, hp, hv]
  refine ⟨tnone, ?_⟩
  simp only [OpenapiJs.fetchOpenAPISpecTrace, hdir, if_true, tnone]

/-- Witness for the amended C1 at the concrete C1 environment. -/
theorem C1_amended_direct_failure_falls_back_to_probing_witness :
    OpenapiJs.tryFetchSpec Fix.envC1
      (OpenapiJs.normalizeUrl "https://spec.example/openapi.json") = none ∧
    OpenapiJs.fetchOpenAPISpecTrace Fix.envC1 "https://spec.example/openapi.json" true =
      ((OpenapiJs.probeLoop Fix.envC1
          (OpenapiJs.getBaseUrl (OpenapiJs.normalizeUrl "https://spec.example/openapi.json"))
          OpenapiJs.COMMON_SPEC_PATHS).1.map OpenapiJs.mkResult,
       OpenapiJs.normalizeUrl "https://spec.example/openapi.json" ::
         (OpenapiJs.probeLoop Fix.envC1
           (OpenapiJs.getBaseUrl (OpenapiJs.normalizeUrl "https://spec.example/openapi.json"))
           OpenapiJs.COMMON_SPEC_PATHS).2) :=
  C1_amended_direct_failure_falls_back_to_probing Fix.envC1
    "https://spec.example/openapi.json" "application/json" "notjson"
    OpenapiJs.ParseFail.json JsVal.undef OpenapiJs.Format.json InvalidReason.notObject
    rfl rfl (Or.inl rfl)

/--
C9: a query whose deterministic direct slug page resolves with HTTP
success on an `/a/` page and yields an extractable documentation link
returns that result after the single direct navigation — the free-text
search URL is never visited; and a query with no direct hit, no `/a/`
redirect and no scored search candidate fails with
ProviderNotFound.
-/
theorem C9_direct_slug_short_circuits_and_no_match_not_found :
    (∀ (env : ApitrackerJs.TrackerEnv) (q : String) (r : DiscoveryJs.TrackerResult),
      env.directResp = some true →
      Js.includes env.directPage.url "/a/" = true →
      ApitrackerJs.extractDocsFromApiPage env.directPage (Js.toLower (Js.trim q)) =
        Except.ok r →
      ApitrackerJs.searchProvider env q =
        (Except.ok r,
         [ApitrackerJs.NavAction.goto ("https://apitracker.io/a/" ++
            ApitrackerJs.encodeURIComponent (Js.toLower (Js.trim q)))])) ∧
    (∀ (env : ApitrackerJs.TrackerEnv) (q : String),
      env.directResp = some false →
      Js.includes env.searchPage.url "/a/" = false →
      ApitrackerJs.findBestSearchResult env.searchPage (Js.toLower (Js.trim q)) = none →
      ApitrackerJs.searchProvider env q =
        (Except.error DiscoveryJs.TrackerErr.providerNotFound,
         [ApitrackerJs.NavAction.goto ("https://apitracker.io/a/" ++
            ApitrackerJs.encodeURIComponent (Js.toLower (Js.trim q))),
          ApitrackerJs.NavAction.goto ("https://apitracker.io/search?q=" ++
            ApitrackerJs.encodeURIComponent (Js.toLower (Js.trim q)))])) := by
  constructor
  · intro env q r h1 h2 h3
    simp [ApitrackerJs.searchProvider, h1, h2, h3]
  · intro env q h1 h2 h3
    simp [ApitrackerJs.searchProvider, h1, h2, h3]

/--
Witness for C9: the n8n direct-slug environment short-circuits; the
doesnotexistco environment yields ProviderNotFound.
-/
theorem C9_direct_slug_short_circuits_and_no_match_not_found_witness :
    ApitrackerJs.searchProvider Fix.envDirect "N8n " =
      (Except.ok ⟨"n8n", "https://docs.n8n.io/api/", "https://apitracker.io/a/n8n", "apitracker"⟩,
       [ApitrackerJs.NavAction.goto ("https://apitracker.io/a/" ++
          ApitrackerJs.encodeURIComponent (Js.toLower (Js.trim "N8n ")))]) ∧
    ApitrackerJs.searchProvider Fix.envMiss "doesnotexistco" =
      (Except.error DiscoveryJs.TrackerErr.providerNotFound,
       [ApitrackerJs.NavAction.goto ("https://apitracker.io/a/" ++
          ApitrackerJs.encodeURIComponent (Js.toLower (Js.trim "doesnotexistco"))),
        ApitrackerJs.NavAction.goto ("https://apitracker.io/search?q=" ++
          ApitrackerJs.encodeURIComponent (Js.toLower (Js.trim "doesnotexistco")))]) :=
  ⟨C9_direct_slug_short_circuits_and_no_match_not_found.1 Fix.envDirect "N8n "
      ⟨"n8n", "https://docs.n8n.io/api/", "https://apitracker.io/a/n8n", "apitracker"⟩
      rfl rfl rfl,
   C9_direct_slug_short_circuits_and_no_match_not_found.2 Fix.envMiss "doesnotexistco"
      rfl rfl rfl⟩

/--
C5 counterexample: the rendered-page extraction entry point
`scrapeEndpoints` runs on a page with authentication-wall signals
(password input and login form present) and returns a successful
extraction result instead of aborting with AuthenticationRequired —
its error taxonomy has no authentication outcome at all.
-/
theorem C5_counterexample_scraper_ignores_auth_wall :
    Fix.authScalarPage.hasPasswordInput = true ∧
    Fix.authScalarPage.hasLoginForm = true ∧
    DocsScraperJs.scrapeEndpoints Fix.authScalarPage "https://docs.example.com" none =
      Except.ok ⟨"https://docs.example.com", "scalar", ⟨"Docs", none, none⟩,
        [⟨"GET", "/users", "List users", [], none⟩]⟩ :=
  ⟨rfl, rfl, rfl⟩

/--
C5 (amended): the Swagger UI and Redoc spec-extraction entry points
check the loaded page for authentication-wall signals before any
extraction layer runs and abort with AuthenticationRequired whatever
the layers would return; the DOM-scraping entry point
(`scrapeEndpoints`) performs no such check and completes normally on
any detected framework.
-/
theorem C5_amended_auth_check_only_in_spec_extractors :
    (∀ (p : SwaggerUiJs.PageEnv) (url : String),
      p.gotoOutcome = Browser.GotoOutcome.ok →
      SwaggerUiJs.detectAuthRequired p = true →
      SwaggerUiJs.extractFromSwaggerUI p url = Except.error ExtractErr.authRequired) ∧
    (∀ (p : RedocJs.PageEnv) (url : String),
      p.gotoOutcome = Browser.GotoOutcome.ok →
      RedocJs.detectAuthRequired p = true →
      RedocJs.extractFromRedoc p url = Except.error ExtractErr.authRequired) ∧
    (∀ (p : DocsScraperJs.ScrapePage) (url : String) (fw : String),
      p.gotoOutcome = Browser.GotoOutcome.ok →
      DocsScraperJs.detectFramework p = some fw →
      ∃ res, DocsScraperJs.scrapeEndpoints p url none = Except.ok res) := by
  refine ⟨?_, ?_, ?_⟩
  · intro p url hgoto hauth
    simp [SwaggerUiJs.extractFromSwaggerUI, hgoto, hauth]
  · intro p url hgoto hauth
    simp [RedocJs.extractFromRedoc, hgoto, hauth]
  · intro p url fw hgoto hdet
    simp only [DocsScraperJs.scrapeEndpoints, hgoto, hdet]
    unfold DocsScraperJs.detectFramework at hdet
    split_ifs at hdet <;> simp_all [DocsScraperJs.extractEndpoints] <;>
      subst hdet <;> simp [DocsScraperJs.extractEndpoints]

/-- Witness for the amended C5 at the three concrete auth-wall pages. -/
theorem C5_amended_auth_check_only_in_spec_extractors_witness :
    SwaggerUiJs.extractFromSwaggerUI Fix.authSwPage "https://docs.example.com" =
      Except.error ExtractErr.authRequired ∧
    RedocJs.extractFromRedoc Fix.authRdPage "https://docs.example.com" =
      Except.error ExtractErr.authRequired ∧
    ∃ res, DocsScraperJs.scrapeEndpoints Fix.authScalarPage "https://docs.example.com" none =
      Except.ok res :=
  ⟨C5_amended_auth_check_only_in_spec_extractors.1 Fix.authSwPage
      "https://docs.example.com" rfl rfl,
   C5_amended_auth_check_only_in_spec_extractors.2.1 Fix.authRdPage
      "https://docs.example.com" rfl rfl,
   C5_amended_auth_check_only_in_spec_extractors.2.2 Fix.authScalarPage
      "https://docs.example.com" "scalar" rfl rfl⟩

/--
C3 counterexample: the document `{openapi:"3.0.0", info:{…}}` with no
paths, webhooks or components is accepted by the Swagger UI and Redoc
validators while the openapi.js validator rejects it — so not every
spec-validation routine requires one of paths/webhooks/components.
-/
theorem C3_counterexample_loose_validators_accept_without_paths :
    SwaggerUiJs.validateSpec Fix.docLoose =
      some ⟨"openapi", JsVal.str "3.0.0", JsVal.str "T", JsVal.str "1"⟩ ∧
    RedocJs.validateSpec Fix.docLoose =
      some ⟨"openapi", JsVal.str "3.0.0", JsVal.str "T", JsVal.str "1"⟩ ∧
    OpenapiJs.validateSpec Fix.docLoose =
      Except.error InvalidReason.missingPathsWebhooksComponents :=
  ⟨rfl, rfl, rfl⟩


/--
C3 (amended): the openapi.js validator accepts exactly the documents
of the spec's full policy (3.x + info + one of
paths/webhooks/components, or swagger '2.0' + info + paths); the
Swagger UI and Redoc validators accept exactly the loose policy that
requires only `info` for a 3.x document; and a document declaring
openapi '2.0' with no swagger field is rejected by all three.
-/
theorem C3_amended_validator_characterization :
    (∀ v : JsVal, (OpenapiJs.validateSpec v).isOk = SpecSide.acceptFull v) ∧
    (∀ v : JsVal, (SwaggerUiJs.validateSpec v).isSome = SpecSide.acceptLoose v) ∧
    (∀ v : JsVal, (RedocJs.validateSpec v).isSome = SpecSide.acceptLoose v) ∧
    (∀ i p w c t ver : JsVal,
      OpenapiJs.validateSpec (JsVal.obj (JsVal.str "2.0") JsVal.undef i p w c t ver) =
        Except.error InvalidReason.notValidSpec ∧
      SwaggerUiJs.validateSpec (JsVal.obj (JsVal.str "2.0") JsVal.undef i p w c t ver) = none ∧
      RedocJs.validateSpec (JsVal.obj (JsVal.str "2.0") JsVal.undef i p w c t ver) = none) := by
  have hstart : Js.startsWith "2.0" "3." = false := by decide
  refine ⟨?_, ?_, ?_, ?_⟩
  · intro v
    cases v with
    | obj o s i p w c t ver =>
      have hg : JsVal.truthy (JsVal.obj o s i p w c t ver) = true := rfl
      have ho : JsVal.isObjectType (JsVal.obj o s i p w c t ver) = true := rfl
      simp only [OpenapiJs.validateSpec, SpecSide.acceptFull, SpecSide.declaresOpenapi3,
        SpecSide.declaresSwagger2, JsVal.getOpenapi, JsVal.getSwagger, JsVal.getInfo,
        JsVal.getPaths, JsVal.getWebhooks, JsVal.getComponents, hg, ho,
        Bool.not_true, Bool.or_self, Bool.false_or, Bool.true_and, Bool.false_eq_true,
        if_false]
      by_cases hA : (JsVal.truthy o && JsVal.isString o &&
          Js.startsWith (JsVal.strVal o) "3.") = true
      · simp only [hA, if_true]
        cases hI : JsVal.truthy i <;>
          cases hP : JsVal.truthy p <;>
          cases hW : JsVal.truthy w <;>
          cases hC : JsVal.truthy c <;>
          simp [hI, hP, hW, hC, Except.isOk, Except.toBool]
      · simp only [hA, if_false]
        by_cases hB : (JsVal.truthy s && JsVal.eqStr s "2.0") = true
        · simp only [hB, if_true]
          cases hI : JsVal.truthy i <;> cases hP : JsVal.truthy p <;>
            simp [hI, hP, Except.isOk, Except.toBool]
        · simp [hA, hB, Except.isOk, Except.toBool]
    | undef => rfl
    | jsNull => rfl
    | boolean b => cases b <;> rfl
    | num n => simp [OpenapiJs.validateSpec, SpecSide.acceptFull, SpecSide.declaresOpenapi3,
        SpecSide.declaresSwagger2, JsVal.truthy, JsVal.isObjectType, Except.isOk, Except.toBool]
    | str s1 => simp [OpenapiJs.validateSpec, SpecSide.acceptFull, SpecSide.declaresOpenapi3,
        SpecSide.declaresSwagger2, JsVal.truthy, JsVal.isObjectType, Except.isOk, Except.toBool]
    | arr => rfl
  · intro v
    cases v with
    | obj o s i p w c t ver =>
      have hg : JsVal.truthy (JsVal.obj o s i p w c t ver) = true := rfl
      have ho : JsVal.isObjectType (JsVal.obj o s i p w c t ver) = true := rfl
      simp only [SwaggerUiJs.validateSpec, SpecSide.acceptLoose, SpecSide.declaresOpenapi3,
        SpecSide.declaresSwagger2, JsVal.getOpenapi, JsVal.getSwagger, JsVal.getInfo,
        JsVal.getPaths, hg, ho,
        Bool.not_true, Bool.or_self, Bool.false_or, Bool.true_and, Bool.false_eq_true,
        if_false]
      by_cases hA : (JsVal.truthy o && JsVal.isString o &&
          Js.startsWith (JsVal.strVal o) "3.") = true
      · simp only [hA, if_true]
        cases hI : JsVal.truthy i <;> simp [hI]
      · simp only [hA, if_false]
        by_cases hB : (JsVal.truthy s && JsVal.eqStr s "2.0") = true
        · simp only [hB, if_true]
          cases hI : JsVal.truthy i <;> cases hP : JsVal.truthy p <;> simp [hI, hP]
        · simp [hA, hB]
    | undef => rfl
    | jsNull => rfl
    | boolean b => cases b <;> rfl
    | num n => simp [SwaggerUiJs.validateSpec, SpecSide.acceptLoose, SpecSide.declaresOpenapi3,
        SpecSide.declaresSwagger2, JsVal.truthy, JsVal.isObjectType]
    | str s1 => simp [SwaggerUiJs.validateSpec, SpecSide.acceptLoose, SpecSide.declaresOpenapi3,
        SpecSide.declaresSwagger2, JsVal.truthy, JsVal.isObjectType]
    | arr => rfl
  · intro v
    cases v with
    | obj o s i p w c t ver =>
      have hg : JsVal.truthy (JsVal.obj o s i p w c t ver) = true := rfl
      have ho : JsVal.isObjectType (JsVal.obj o s i p w c t ver) = true := rfl
      simp only [RedocJs.validateSpec, SpecSide.acceptLoose, SpecSide.declaresOpenapi3,
        SpecSide.declaresSwagger2, JsVal.getOpenapi, JsVal.getSwagger, JsVal.getInfo,
        JsVal.getPaths, hg, ho,
        Bool.not_true, Bool.or_self, Bool.false_or, Bool.true_and, Bool.false_eq_true,
        if_false]
      by_cases hA : (JsVal.truthy o && JsVal.isString o &&
          Js.startsWith (JsVal.strVal o) "3.") = true
      · simp only [hA, if_true]
        cases hI : JsVal.truthy i <;> simp [hI]
      · simp only [hA, if_false]
        by_cases hB : (JsVal.truthy s && JsVal.eqStr s "2.0") = true
        · simp only [hB, if_true]
          cases hI : JsVal.truthy i <;> cases hP : JsVal.truthy p <;> simp [hI, hP]
        · simp [hA, hB]
    | undef => rfl
    | jsNull => rfl
    | boolean b => cases b <;> rfl
    | num n => simp [RedocJs.validateSpec, SpecSide.acceptLoose, SpecSide.declaresOpenapi3,
        SpecSide.declaresSwagger2, JsVal.truthy, JsVal.isObjectType]
    | str s1 => simp [RedocJs.validateSpec, SpecSide.acceptLoose, SpecSide.declaresOpenapi3,
        SpecSide.declaresSwagger2, JsVal.truthy, JsVal.isObjectType]
    | arr => rfl
  · intro i p w c t ver
    refine ⟨?_, ?_, ?_⟩
    · simp [OpenapiJs.validateSpec, JsVal.truthy, JsVal.isObjectType, JsVal.getOpenapi,
        JsVal.getSwagger, JsVal.isString, JsVal.strVal, hstart]
    · simp [SwaggerUiJs.validateSpec, JsVal.truthy, JsVal.isObjectType, JsVal.getOpenapi,
        JsVal.getSwagger, JsVal.isString, JsVal.strVal, hstart]
    · simp [RedocJs.validateSpec, JsVal.truthy, JsVal.isObjectType, JsVal.getOpenapi,
        JsVal.getSwagger, JsVal.isString, JsVal.strVal, hstart]

theorem dedupPush_eq (cs : List (String × String × String)) (seen : List String)
    (acc : List DocsScraperJs.Endpoint) :
    DocsScraperJs.dedupPush seen acc cs =
      (seen ++ SpecSide.keysOf (SpecSide.firstWins cs seen),
       acc ++ (SpecSide.firstWins cs seen).map SpecSide.mkEp) := by
  induction cs generalizing seen acc with
  | nil => simp [DocsScraperJs.dedupPush, SpecSide.firstWins, SpecSide.keysOf]
  | cons hd rest ih =>
    obtain ⟨m, p, d⟩ := hd
    by_cases h : seen.contains (DocsScraperJs.keyOf m p) = true
    · have hmem : DocsScraperJs.keyOf m p ∈ seen := by simpa using h
      simp [DocsScraperJs.dedupPush, SpecSide.firstWins, h, hmem, ih]
    · have hf : seen.contains (DocsScraperJs.keyOf m p) = false := by
        cases hc : seen.contains (DocsScraperJs.keyOf m p)
        · rfl
        · exact absurd hc h
      have hmem : DocsScraperJs.keyOf m p ∉ seen := by simpa using hf
      simp [DocsScraperJs.dedupPush, SpecSide.firstWins, hf, hmem, ih, SpecSide.keysOf,
        SpecSide.mkEp]

theorem firstWins_keys_spec (cs : List (String × String × String)) (seen : List String) :
    (∀ k ∈ SpecSide.keysOf (SpecSide.firstWins cs seen), k ∉ seen) ∧
    (SpecSide.keysOf (SpecSide.firstWins cs seen)).Nodup := by
  induction cs generalizing seen with
  | nil => simp [SpecSide.firstWins, SpecSide.keysOf]
  | cons hd rest ih =>
    obtain ⟨m, p, d⟩ := hd
    by_cases h : seen.contains (DocsScraperJs.keyOf m p) = true
    · simp only [SpecSide.firstWins, h, if_true]
      exact ih seen
    · have hf : DocsScraperJs.keyOf m p ∉ seen := by
        intro hmem
        exact h (by simpa using hmem)
      simp only [SpecSide.firstWins, h, if_false, SpecSide.keysOf, List.map_cons]
      obtain ⟨ih1, ih2⟩ := ih (seen ++ [DocsScraperJs.keyOf m p])
      refine ⟨?_, ?_⟩
      · intro k hk
        rcases List.mem_cons.mp hk with hk | hk
        · subst hk; exact hf
        · have := ih1 k hk
          intro hs
          exact this (by simp [hs])
      · refine List.nodup_cons.mpr ⟨?_, ih2⟩
        intro hk
        have := ih1 _ hk
        simp at this

theorem pairwise_keys_firstWins (cs : List (String × String × String)) (seen : List String) :
    List.Pairwise (fun a b : DocsScraperJs.Endpoint =>
      DocsScraperJs.keyOf a.method a.path ≠ DocsScraperJs.keyOf b.method b.path)
      ((SpecSide.firstWins cs seen).map SpecSide.mkEp) := by
  have h : List.Pairwise (fun a b => a ≠ b)
      (List.map (fun t => DocsScraperJs.keyOf t.1 t.2.1) (SpecSide.firstWins cs seen)) :=
    (firstWins_keys_spec cs seen).2
  rw [List.pairwise_map] at h
  rw [List.pairwise_map]
  simpa [SpecSide.mkEp] using h

theorem firstWins_ne_nil (cs : List (String × String × String)) (h : cs ≠ []) :
    SpecSide.firstWins cs [] ≠ [] := by
  cases cs with
  | nil => exact absurd rfl h
  | cons hd rest =>
    obtain ⟨m, p, d⟩ := hd
    simp [SpecSide.firstWins]

/--
C6 counterexample: the Redoc DOM-heuristic extraction of the docs
scraper does not collapse two operation blocks with the same
(method, path): both entries, with their distinct descriptions,
appear in the result.
-/
theorem C6_counterexample_redoc_dom_keeps_duplicates :
    DocsScraperJs.extractRedocEndpoints Fix.dupRedocPage =
      [⟨"GET", "/users", "first", [], none⟩, ⟨"GET", "/users", "second", [], none⟩] :=
  rfl

/--
C6 (amended): the Scalar DOM-heuristic extraction deduplicates by
(method, path) with a shared seen set — its output always has
pairwise-distinct keys, and when operation blocks qualify, the output
is exactly the first-wins selection of the block candidates (so the
first-seen description is retained); the Redoc DOM-heuristic
extraction performs no deduplication: whenever operation blocks
qualify it returns one entry per qualifying block, duplicates
included.
-/
theorem C6_amended_scalar_dedups_redoc_does_not :
    (∀ (ops : List DocsScraperJs.OpBlock) (navTexts : List String)
       (bodyMatches : List (String × String)),
      List.Pairwise (fun a b : DocsScraperJs.Endpoint =>
        DocsScraperJs.keyOf a.method a.path ≠ DocsScraperJs.keyOf b.method b.path)
        (DocsScraperJs.extractScalarDom ops navTexts bodyMatches)) ∧
    (∀ (ops : List DocsScraperJs.OpBlock) (navTexts : List String)
       (bodyMatches : List (String × String)),
      ops.filterMap DocsScraperJs.scalarOpCandidate ≠ [] →
      DocsScraperJs.extractScalarDom ops navTexts bodyMatches =
        (SpecSide.firstWins (ops.filterMap DocsScraperJs.scalarOpCandidate) []).map
          SpecSide.mkEp) ∧
    (∀ (ops : List DocsScraperJs.OpBlock) (menuTexts : List String),
      ops.filterMap DocsScraperJs.redocOpCandidate ≠ [] →
      DocsScraperJs.extractRedocDom ops menuTexts =
        ops.filterMap DocsScraperJs.redocOpCandidate) := by
  refine ⟨?_, ?_, ?_⟩
  · intro ops navTexts bodyMatches
    simp only [DocsScraperJs.extractScalarDom, dedupPush_eq, List.nil_append]
    split
    · split
      · exact pairwise_keys_firstWins _ _
      · exact pairwise_keys_firstWins _ _
    · exact pairwise_keys_firstWins _ _
  · intro ops navTexts bodyMatches h
    have h1 := firstWins_ne_nil _ h
    have he : ((SpecSide.firstWins (ops.filterMap DocsScraperJs.scalarOpCandidate) []).map
        SpecSide.mkEp).isEmpty = false := by
      rcases hx : SpecSide.firstWins (ops.filterMap DocsScraperJs.scalarOpCandidate) [] with
        _ | ⟨a, l⟩
      · exact absurd hx h1
      · simp
    simp only [DocsScraperJs.extractScalarDom, dedupPush_eq, List.nil_append, he,
      Bool.false_eq_true, if_false]
  · intro ops menuTexts h
    have he : (ops.filterMap DocsScraperJs.redocOpCandidate).isEmpty = false := by
      rcases hx : ops.filterMap DocsScraperJs.redocOpCandidate with _ | ⟨a, l⟩
      · exact absurd hx h
      · simp
    simp only [DocsScraperJs.extractRedocDom, he, Bool.false_eq_true, if_false]

/--
Witness for the amended C6 on two duplicate GET /users blocks: the
scalar extraction equals the first-wins selection, the redoc
extraction equals the raw candidate list.
-/
theorem C6_amended_scalar_dedups_redoc_does_not_witness :
    DocsScraperJs.extractScalarDom
      [⟨some "GET", some "/users", some "first"⟩, ⟨some "GET", some "/users", some "second"⟩]
      [] [] =
      (SpecSide.firstWins
        ([⟨some "GET", some "/users", some "first"⟩,
          ⟨some "GET", some "/users", some "second"⟩].filterMap
          DocsScraperJs.scalarOpCandidate) []).map SpecSide.mkEp ∧
    DocsScraperJs.extractRedocDom
      [⟨some "GET", some "/users", some "first"⟩, ⟨some "GET", some "/users", some "second"⟩]
      [] =
      [⟨some "GET", some "/users", some "first"⟩,
       ⟨some "GET", some "/users", some "second"⟩].filterMap
        DocsScraperJs.redocOpCandidate :=
  ⟨C6_amended_scalar_dedups_redoc_does_not.2.1
      [⟨some "GET", some "/users", some "first"⟩, ⟨some "GET", some "/users", some "second"⟩]
      [] [] (by decide),
   C6_amended_scalar_dedups_redoc_does_not.2.2
      [⟨some "GET", some "/users", some "first"⟩, ⟨some "GET", some "/users", some "second"⟩]
      [] (by decide)⟩
